import Mathlib

/-!
Verification development for the voxel chunk generation and meshing pipeline
of the 7K Voxelcraft repository.

The worker (`worker.js`) is embedded shallowly:

* JS numbers are modelled as `ℚ`; `Math.sin` is an environment parameter
  `sinv : ℚ → ℚ` (a fixed, deterministic function, as `Math.sin` is), and
  `Math.floor` is `Int.floor`.
* The `Uint8Array` chunk buffer is a zero-initialised `Store := ℕ → ℕ`;
  out-of-array accesses are modelled with `Option` where the source performs
  them (`getRaw`).
* Fallible / absent message fields are modelled with `Option`.

All definitions are translated from the source; definitions whose name starts
with `spec` instead transliterate the specification's words and are compared
with the source-derived definitions in the theorems.
-/

/-- Chunk X/Z extent (`CHUNK_SIZE` in the source). -/
def CHUNK_SIZE : ℕ := 16

/-- Chunk Y extent (`CHUNK_HEIGHT` in the source). -/
def CHUNK_HEIGHT : ℕ := 128

def BLOCK_AIR : ℕ := 0
def BLOCK_DIRT : ℕ := 1
def BLOCK_GRASS : ℕ := 2
def BLOCK_STONE : ℕ := 3
def BLOCK_SAND : ℕ := 4
def BLOCK_LOG : ℕ := 5
def BLOCK_LEAVES : ℕ := 6
def BLOCK_CACTUS : ℕ := 7

def BIOME_PLAINS : ℕ := 0
def BIOME_DESERT : ℕ := 1
def BIOME_FOREST : ℕ := 2

/-- Material colour table of the worker (hex colours), `MATERIALS` in the
source; block types without an entry map to `none`. -/
def MATERIALS : ℕ → Option ℕ := fun b =>
  if b = BLOCK_DIRT then some 0x8b5a2b
  else if b = BLOCK_GRASS then some 0x4caf50
  else if b = BLOCK_STONE then some 0x9e9e9e
  else if b = BLOCK_SAND then some 0xf4a460
  else if b = BLOCK_LOG then some 0x663300
  else if b = BLOCK_LEAVES then some 0x006400
  else if b = BLOCK_CACTUS then some 0x228b22
  else none

/-- The chunk's voxel buffer: a dense byte array, modelled as a function from
linear index to stored byte (the `Uint8Array` is zero-initialised). -/
def Store : Type := ℕ → ℕ

/-- The fresh, zero-initialised buffer `new Uint8Array(...)`. -/
def emptyStore : Store := fun _ => 0

/-- Linear index of the generator and mesher:
`indexOf = (x, y, z) => y + z * CHUNK_HEIGHT + x * CHUNK_HEIGHT * CHUNK_SIZE`
(integer version, for raw accesses whose coordinates may be out of range). -/
def indexOfZ (x y z : ℤ) : ℤ := y + z * 128 + x * (128 * 16)

/-- Version of `indexOf` restricted to natural coordinates (all in-range accesses). -/
def indexOf (x y z : ℕ) : ℕ := y + z * 128 + x * (128 * 16)

/-- The mesher's local index helper
`indexOf = (x, y, z) => y + z * sy + x * (sy * sz)` for grid extents
`sx`, `sy`, `sz`. -/
def meshIndexOf (sy sz : ℕ) (x y z : ℤ) : ℤ := y + z * sy + x * (sy * sz)

/-- The generator's bounds-checked write helper `setBlock`: writes inside
`[0,16) × [0,128) × [0,16)` update the cell, writes outside are silently
dropped. -/
def setBlock (d : Store) (x y z : ℤ) (t : ℕ) : Store :=
  if 0 ≤ x ∧ x < 16 ∧ 0 ≤ y ∧ y < 128 ∧ 0 ≤ z ∧ z < 16 then
    fun i => if (i : ℤ) = indexOfZ x y z then t else d i
  else d

/-- A raw `data[indexOf(x, y, z)]` read as performed by the canopy pass:
no coordinate bounds check, only the array's own extent decides whether the
access yields a value (`none` models JS `undefined`). -/
def getRaw (d : Store) (x y z : ℤ) : Option ℕ :=
  let i := indexOfZ x y z
  if 0 ≤ i ∧ i < 32768 then some (d i.toNat) else none

/-- Noise hash `pseudoNoise(x, y, z, seed)`: fractional part of
`sin(x*127.1 + y*311.7 + z*522.1 + seed*1013.0) * 43758.5453`; the ambient
`Math.sin` is the parameter `sinv`. -/
def pseudoNoise (sinv : ℚ → ℚ) (x y z seed : ℚ) : ℚ :=
  Int.fract (sinv (x * (1271/10) + y * (3117/10) + z * (5221/10) + seed * 1013) *
    (437585453/10000))

/-- One octave step of `octaveNoise`: state is
(total, frequency, amplitude, maxValue). -/
def octaveStep (sinv : ℚ → ℚ) (x z seed persistence lacunarity : ℚ)
    (st : ℚ × ℚ × ℚ × ℚ) : ℚ × ℚ × ℚ × ℚ :=
  (st.1 + pseudoNoise sinv (x * st.2.1) 0 (z * st.2.1) seed * st.2.2.1,
   st.2.1 * lacunarity, st.2.2.1 * persistence, st.2.2.2 + st.2.2.1)

/-- Fractal noise `octaveNoise(x, z, seed, octaves, persistence, lacunarity, scale)`:
multi-octave fractal noise, normalised by the sum of the amplitudes. -/
def octaveNoise (sinv : ℚ → ℚ) (x z seed : ℚ) (octaves : ℕ)
    (persistence lacunarity scale : ℚ) : ℚ :=
  let st := (List.range octaves).foldl
    (fun st _ => octaveStep sinv x z seed persistence lacunarity st)
    (0, scale, 1, 0)
  st.1 / st.2.2.2

/-- Biome choice `getBiome(x, z, seed)`: biome from large-scale octave noise. -/
def getBiome (sinv : ℚ → ℚ) (x z seed : ℚ) : ℕ :=
  let noise := octaveNoise sinv x z (seed + 1) 3 (1/2) 2 (5/1000)
  if noise < 33/100 then BIOME_DESERT
  else if noise < 66/100 then BIOME_PLAINS
  else BIOME_FOREST

/-- The per-column terrain height of Step 1: the biome switch followed by
`Math.floor`. -/
def terrainHeightAt (sinv : ℚ → ℚ) (seed wx wz : ℚ) (biome : ℕ) : ℤ :=
  ⌊if biome = BIOME_DESERT then
      60 + octaveNoise sinv wx wz seed 4 (1/2) 2 (2/100) * 10
    else if biome = BIOME_FOREST then
      70 + octaveNoise sinv wx wz seed 6 (1/2) 2 (15/1000) * 30
    else
      64 + octaveNoise sinv wx wz seed 5 (1/2) 2 (2/100) * 15⌋

/-- The block written by Step 1 at height `y` of a column with terrain height
`th` in biome `biome`. -/
def blockAtY (biome : ℕ) (th : ℤ) (y : ℕ) : ℕ :=
  if (y : ℤ) > th then BLOCK_AIR
  else if (y : ℤ) = th then (if biome = BIOME_DESERT then BLOCK_SAND else BLOCK_GRASS)
  else if (y : ℤ) > th - 4 then (if biome = BIOME_DESERT then BLOCK_SAND else BLOCK_DIRT)
  else BLOCK_STONE

/-- Step 1 of `generateChunkData`: base terrain, looping x, z, y. -/
def step1 (sinv : ℚ → ℚ) (cx cz seed : ℚ) : Store :=
  (List.range 16).foldl (fun d (x : ℕ) =>
    (List.range 16).foldl (fun d (z : ℕ) =>
      let wx : ℚ := cx * 16 + (x : ℚ)
      let wz : ℚ := cz * 16 + (z : ℚ)
      let biome := getBiome sinv wx wz seed
      let th := terrainHeightAt sinv seed wx wz biome
      (List.range 128).foldl (fun d (y : ℕ) =>
        setBlock d (x : ℤ) (y : ℤ) (z : ℤ) (blockAtY biome th y)) d)
      d)
    emptyStore

/-- The 3D cave noise sample of Step 2 (`CAVE_SCALE = 0.08`). -/
def caveNoiseAt (sinv : ℚ → ℚ) (cx cz seed : ℚ) (x y z : ℕ) : ℚ :=
  pseudoNoise sinv ((cx * 16 + (x : ℚ)) * (8/100)) ((y : ℚ) * (8/100))
    ((cz * 16 + (z : ℚ)) * (8/100)) (seed + 2)

/-- Step 2 of `generateChunkData`: cave carving; note the y loop runs
`y < CHUNK_HEIGHT - 1`. -/
def step2 (sinv : ℚ → ℚ) (cx cz seed : ℚ) (d0 : Store) : Store :=
  (List.range 16).foldl (fun d (x : ℕ) =>
    (List.range 16).foldl (fun d (z : ℕ) =>
      (List.range 127).foldl (fun d (y : ℕ) =>
        if d (indexOf x y z) = BLOCK_STONE then
          if caveNoiseAt sinv cx cz seed x y z > 3/4 then
            setBlock d (x : ℤ) (y : ℤ) (z : ℤ) BLOCK_AIR
          else d
        else d) d) d) d0

/-- The downward surface scan of Step 3: highest `y` with a non-Air cell
(`none` models the sentinel `surfaceY === -1`). -/
def surfaceScan (d : Store) (x z : ℕ) : Option ℕ :=
  (List.range 128).reverse.find? (fun y => d (indexOf x y z) != 0)

/-- The loop offsets `-radius .. radius` of the canopy pass (radius 2). -/
def canopyOffsets : List ℤ := [-2, -1, 0, 1, 2]

/-- Step 3 of `generateChunkData`, one column: tree placement (Forest over
Grass) or cactus placement (Desert over Sand). -/
def step3Column (sinv : ℚ → ℚ) (cx cz seed : ℚ) (d : Store) (x z : ℕ) : Store :=
  match surfaceScan d x z with
  | none => d
  | some sy =>
    let wx : ℚ := cx * 16 + (x : ℚ)
    let wz : ℚ := cz * 16 + (z : ℚ)
    let biome := getBiome sinv wx wz seed
    let surfaceBlock := d (indexOf x sy z)
    let featureNoise := pseudoNoise sinv wx 0 wz (seed + 3)
    if biome = BIOME_FOREST ∧ surfaceBlock = BLOCK_GRASS then
      if featureNoise > 95/100 ∧ 2 < x ∧ x < 16 - 2 ∧ 2 < z ∧ z < 16 - 2 then
        let treeHeight : ℤ := 4 + ⌊pseudoNoise sinv wx 1 wz (seed + 4) * 3⌋
        if (sy : ℤ) + treeHeight + 2 < 128 then
          let d1 := (List.range' 1 treeHeight.toNat).foldl
            (fun d (i : ℕ) => setBlock d (x : ℤ) ((sy : ℤ) + i) (z : ℤ) BLOCK_LOG) d
          (canopyOffsets ×ˢ canopyOffsets ×ˢ canopyOffsets).foldl
            (fun d c =>
              let ly := c.1
              let lx := c.2.1
              let lz := c.2.2
              if lx * lx + ly * ly + lz * lz ≤ 2 * 2 then
                if getRaw d ((x : ℤ) + lx) ((sy : ℤ) + treeHeight + ly) ((z : ℤ) + lz)
                    = some BLOCK_AIR then
                  setBlock d ((x : ℤ) + lx) ((sy : ℤ) + treeHeight + ly) ((z : ℤ) + lz)
                    BLOCK_LEAVES
                else d
              else d) d1
        else d
      else d
    else if biome = BIOME_DESERT ∧ surfaceBlock = BLOCK_SAND then
      if featureNoise > 98/100 then
        let cactusHeight : ℤ := 2 + ⌊pseudoNoise sinv wx 1 wz (seed + 4) * 2⌋
        if (sy : ℤ) + cactusHeight < 128 then
          (List.range' 1 cactusHeight.toNat).foldl
            (fun d (i : ℕ) => setBlock d (x : ℤ) ((sy : ℤ) + i) (z : ℤ) BLOCK_CACTUS) d
        else d
      else d
    else d

/-- Step 3 of `generateChunkData`: features, looping x then z. -/
def step3 (sinv : ℚ → ℚ) (cx cz seed : ℚ) (d0 : Store) : Store :=
  (List.range 16).foldl (fun d x =>
    (List.range 16).foldl (fun d z => step3Column sinv cx cz seed d x z) d) d0

/-- Full generator `generateChunkData(cx, cz, seed)`: base terrain, then caves, then
features, over one shared buffer. -/
def generateChunkData (sinv : ℚ → ℚ) (cx cz seed : ℚ) : Store :=
  step3 sinv cx cz seed (step2 sinv cx cz seed (step1 sinv cx cz seed))

/-- The four flat vertex-attribute arrays produced by the mesher. -/
structure MeshOut where
  positions : List ℚ
  normals : List ℚ
  uvs : List ℚ
  colors : List ℚ
deriving DecidableEq, Repr

/-- The empty mesh (all four arrays start out empty). -/
def memptyOut : MeshOut := ⟨[], [], [], []⟩

/-- Appending the contributions of one face / cell to the arrays built so
far (the JS `push` calls). -/
def mappendOut (a b : MeshOut) : MeshOut :=
  ⟨a.positions ++ b.positions, a.normals ++ b.normals, a.uvs ++ b.uvs,
   a.colors ++ b.colors⟩

/-- One entry of the mesher's `FACES` table: a direction and four corner
offsets. -/
structure Face where
  dir : ℤ × ℤ × ℤ
  c1 : ℕ × ℕ × ℕ
  c2 : ℕ × ℕ × ℕ
  c3 : ℕ × ℕ × ℕ
  c4 : ℕ × ℕ × ℕ
deriving DecidableEq, Repr

/-- The `FACES` table: -Y, +Y, -X, +X, -Z, +Z. -/
def FACES : List Face :=
  [⟨(0, -1, 0), (0, 0, 1), (1, 0, 1), (1, 0, 0), (0, 0, 0)⟩,
   ⟨(0, 1, 0), (0, 1, 0), (1, 1, 0), (1, 1, 1), (0, 1, 1)⟩,
   ⟨(-1, 0, 0), (0, 0, 1), (0, 1, 1), (0, 1, 0), (0, 0, 0)⟩,
   ⟨(1, 0, 0), (1, 0, 0), (1, 1, 0), (1, 1, 1), (1, 0, 1)⟩,
   ⟨(0, 0, -1), (1, 0, 0), (0, 0, 0), (0, 1, 0), (1, 1, 0)⟩,
   ⟨(0, 0, 1), (0, 0, 1), (1, 0, 1), (1, 1, 1), (0, 1, 1)⟩]

/-- The mesher's bounds-checked read: out-of-bounds neighbours read as Air. -/
def meshGetBlock (d : Store) (sx sy sz : ℕ) (x y z : ℤ) : ℕ :=
  if x < 0 ∨ (sx : ℤ) ≤ x ∨ y < 0 ∨ (sy : ℤ) ≤ y ∨ z < 0 ∨ (sz : ℤ) ≤ z then BLOCK_AIR
  else d ((meshIndexOf sy sz x y z).toNat)

/-- The three position floats pushed for one corner of a face at cell
`(x, y, z)`. -/
def pushCorner (p : ℕ × ℕ × ℕ) (x y z : ℕ) : List ℚ :=
  [((p.1 + x : ℕ) : ℚ), ((p.2.1 + y : ℕ) : ℚ), ((p.2.2 + z : ℕ) : ℚ)]

/-- The buffer contribution of one visible face: two triangles
(corners 1-2-3 and 1-3-4), six vertices, each with the face normal,
placeholder UV (0,0) and the cell colour. -/
def emitFace (f : Face) (x y z : ℕ) (r g b : ℚ) : MeshOut :=
  { positions := pushCorner f.c1 x y z ++ pushCorner f.c2 x y z ++ pushCorner f.c3 x y z ++
      pushCorner f.c1 x y z ++ pushCorner f.c3 x y z ++ pushCorner f.c4 x y z
    normals := (List.replicate 6 [(f.dir.1 : ℚ), (f.dir.2.1 : ℚ), (f.dir.2.2 : ℚ)]).flatten
    uvs := (List.replicate 6 [(0 : ℚ), 0]).flatten
    colors := (List.replicate 6 [r, g, b]).flatten }

/-- The mesher's per-cell work: skip Air, skip block types without a
material, then emit a face for each of the six directions whose neighbour
reads as Air. -/
def meshCell (d : Store) (sx sy sz : ℕ) (x z y : ℕ) : MeshOut :=
  let blockType := meshGetBlock d sx sy sz x y z
  if blockType = BLOCK_AIR then memptyOut
  else
    match MATERIALS blockType with
    | none => memptyOut
    | some colorVal =>
      let r : ℚ := ((colorVal / 65536 % 256 : ℕ) : ℚ) / 255
      let g : ℚ := ((colorVal / 256 % 256 : ℕ) : ℚ) / 255
      let b : ℚ := ((colorVal % 256 : ℕ) : ℚ) / 255
      FACES.foldl (fun acc f =>
        if meshGetBlock d sx sy sz ((x : ℤ) + f.dir.1) ((y : ℤ) + f.dir.2.1)
            ((z : ℤ) + f.dir.2.2) = BLOCK_AIR then
          mappendOut acc (emitFace f x y z r g b)
        else acc) memptyOut

/-- Mesher `greedyMeshVoxel(data, sx, sy, sz)`: face-culling mesher, looping
x (outer), z, y (inner). -/
def greedyMeshVoxel (d : Store) (sx sy sz : ℕ) : MeshOut :=
  (List.range sx).foldl (fun acc x =>
    (List.range sz).foldl (fun acc z =>
      (List.range sy).foldl (fun acc y => mappendOut acc (meshCell d sx sy sz x z y))
        acc) acc) memptyOut

/-- The main-thread `getBlock` of `src/index.tsx`: world-space lookup into the
per-chunk buffers held in the `worldData` map, using the index expression
`localX + localZ * CHUNK_SIZE + localY * (CHUNK_SIZE * CHUNK_SIZE)`. -/
def mainGetBlock (world : ℤ × ℤ → Option Store) (x y z : ℚ) : ℕ :=
  let chunkX : ℤ := ⌊x / 16⌋
  let chunkZ : ℤ := ⌊z / 16⌋
  match world (chunkX, chunkZ) with
  | none => BLOCK_AIR
  | some chunk =>
    let localX : ℤ := ⌊x⌋ - chunkX * 16
    let localY : ℤ := ⌊y⌋
    let localZ : ℤ := ⌊z⌋ - chunkZ * 16
    if localY < 0 ∨ 128 ≤ localY then BLOCK_AIR
    else chunk ((localX + localZ * 16 + localY * (16 * 16)).toNat)

/-- A worker message, as destructured by `self.onmessage`
(`const { chunkX, chunkZ, seed } = e.data`); a remesh request carries only
`data`, leaving the three numeric fields absent. -/
structure WorkerRequest where
  chunkX : Option ℚ
  chunkZ : Option ℚ
  seed : Option ℚ
  data : Option (List ℕ)

/-- What the worker can post back: a mesh, or an invalid-input error report
(the latter constructor exists only to state that the code never produces
it). -/
inductive WorkerResponse where
  | meshResult : MeshOut → WorkerResponse
  | invalidInput : WorkerResponse
deriving DecidableEq

/-- The worker's `self.onmessage` handler: it unconditionally regenerates a
chunk from the destructured `(chunkX, chunkZ, seed)` fields and meshes it.
When any of the numeric fields is absent (a remesh-shaped message), the JS
code evaluates `generateChunkData` on `undefined` inputs — that NaN
evaluation is represented by the parameter `nanChunk`, the fixed buffer it
produces. No branch inspects `data` and no error is ever posted. -/
def workerOnMessage (sinv : ℚ → ℚ) (nanChunk : Store) (req : WorkerRequest) :
    WorkerResponse :=
  match req.chunkX, req.chunkZ, req.seed with
  | some cx, some cz, some s =>
      WorkerResponse.meshResult (greedyMeshVoxel (generateChunkData sinv cx cz s) 16 128 16)
  | _, _, _ => WorkerResponse.meshResult (greedyMeshVoxel nanChunk 16 128 16)

/-- Spec-side (claim C3): biome `base` column of the constant table. -/
def specBase (biome : ℕ) : ℚ :=
  if biome = BIOME_DESERT then 60 else if biome = BIOME_FOREST then 70 else 64

/-- Spec-side (claim C3): biome `amplitude` column of the constant table. -/
def specAmplitude (biome : ℕ) : ℚ :=
  if biome = BIOME_DESERT then 10 else if biome = BIOME_FOREST then 30 else 15

/-- Spec-side (claim C3): biome `octaves` column of the constant table. -/
def specOctaves (biome : ℕ) : ℕ :=
  if biome = BIOME_DESERT then 4 else if biome = BIOME_FOREST then 6 else 5

/-- Spec-side (claim C3): biome `scale` column of the constant table. -/
def specScale (biome : ℕ) : ℚ :=
  if biome = BIOME_DESERT then 2/100 else if biome = BIOME_FOREST then 15/1000 else 2/100

/-- Spec-side (claim C3):
`terrainHeight = floor(base + amplitude * fractalNoise(worldX, worldZ, seed,
octaves, persistence, lacunarity, scale))` with persistence 0.5 and
lacunarity 2 throughout. -/
def specTerrainHeight (sinv : ℚ → ℚ) (seed wx wz : ℚ) (biome : ℕ) : ℤ :=
  ⌊specBase biome +
    specAmplitude biome * octaveNoise sinv wx wz seed (specOctaves biome) (1/2) 2 (specScale biome)⌋

/-- Spec-side (claim C3) fill rule per vertical cell `y`: Air above the
terrain height, Sand (Desert) or Grass (otherwise) at it, Sand (Desert) or
Dirt (otherwise) strictly between `terrainHeight-4` and `terrainHeight`, and
Stone at and below `terrainHeight-4`. -/
def specFill (biome : ℕ) (th : ℤ) (y : ℕ) : ℕ :=
  if (y : ℤ) > th then BLOCK_AIR
  else if (y : ℤ) = th then (if biome = BIOME_DESERT then BLOCK_SAND else BLOCK_GRASS)
  else if th - 4 < (y : ℤ) ∧ (y : ℤ) < th then
    (if biome = BIOME_DESERT then BLOCK_SAND else BLOCK_DIRT)
  else BLOCK_STONE

/-- The biome of the chunk-local column `(x, z)` of chunk `(cx, cz)`. -/
def biomeAt (sinv : ℚ → ℚ) (cx cz seed : ℚ) (x z : ℕ) : ℕ :=
  getBiome sinv (cx * 16 + (x : ℚ)) (cz * 16 + (z : ℚ)) seed

/-- The Step-1 terrain height of the chunk-local column `(x, z)`. -/
def thAt (sinv : ℚ → ℚ) (cx cz seed : ℚ) (x z : ℕ) : ℤ :=
  terrainHeightAt sinv seed (cx * 16 + (x : ℚ)) (cz * 16 + (z : ℚ))
    (biomeAt sinv cx cz seed x z)

/-- Spec-side (claim C4): cells of the grid in traversal order
(x outer, z middle, y inner), as `(x, z, y)` triples. -/
def specCells (sx sy sz : ℕ) : List (ℕ × ℕ × ℕ) :=
  ((List.range sx) ×ˢ ((List.range sz) ×ˢ (List.range sy))).map fun c => (c.1, c.2.1, c.2.2)

/-- Spec-side (claim C4): a grid position reads as Air when it lies outside
the grid bounds, or when the cell there holds `BLOCK_AIR`. -/
def specAirAt (d : Store) (sx sy sz : ℕ) (x y z : ℤ) : Bool :=
  decide (x < 0 ∨ (sx : ℤ) ≤ x ∨ y < 0 ∨ (sy : ℤ) ≤ y ∨ z < 0 ∨ (sz : ℤ) ≤ z) ||
  decide (d ((meshIndexOf sy sz x y z).toNat) = BLOCK_AIR)

/-- Spec-side (claim C4): a face of cell `c = (x, z, y)` is visible exactly
when the neighbouring position in the face's direction reads as Air. -/
def specVisible (d : Store) (sx sy sz : ℕ) (c : ℕ × ℕ × ℕ) (f : Face) : Bool :=
  specAirAt d sx sy sz ((c.1 : ℤ) + f.dir.1) ((c.2.2 : ℤ) + f.dir.2.1)
    ((c.2.1 : ℤ) + f.dir.2.2)

/-- RGB channels of a packed hex colour, normalised to [0,1]. -/
def rgbOf (colorVal : ℕ) : ℚ × ℚ × ℚ :=
  (((colorVal / 65536 % 256 : ℕ) : ℚ) / 255,
   ((colorVal / 256 % 256 : ℕ) : ℚ) / 255,
   ((colorVal % 256 : ℕ) : ℚ) / 255)

/-- Concatenation of a list of mesh contributions. -/
def joinMesh (l : List MeshOut) : MeshOut := l.foldr mappendOut memptyOut

/-- Spec-side (claims C4, C7): the list of (cell, face) pairs emitted, in
traversal order — for every non-Air cell, the faces whose neighbour reads as
Air. -/
def specFaceList (d : Store) (sx sy sz : ℕ) : List ((ℕ × ℕ × ℕ) × Face) :=
  (specCells sx sy sz).flatMap fun c =>
    if d ((meshIndexOf sy sz c.1 c.2.2 c.2.1).toNat) = BLOCK_AIR then []
    else (FACES.filter (specVisible d sx sy sz c)).map fun f => (c, f)

/-- Spec-side (claim C4): the mesh described by the specification — for each
emitted face, two triangles (six vertices), per-vertex normal equal to the
face direction, UV fixed at (0,0), and per-vertex colour equal to the cell's
material RGB normalised to [0,1]. -/
def specMesh (d : Store) (sx sy sz : ℕ) : MeshOut :=
  joinMesh ((specFaceList d sx sy sz).map fun cf =>
    let c := cf.1
    let rgb := rgbOf ((MATERIALS (d ((meshIndexOf sy sz c.1 c.2.2 c.2.1).toNat))).getD 0)
    emitFace cf.2 c.1 c.2.2 c.2.1 rgb.1 rgb.2.1 rgb.2.2)

/-- Spec-side (claim C6): the tree-trunk height
`4 + floor(pointNoise(worldX, 1, worldZ, seed+4) * 3)`. -/
def specTreeHeight (sinv : ℚ → ℚ) (cx cz seed : ℚ) (x z : ℕ) : ℤ :=
  4 + ⌊pseudoNoise sinv (cx * 16 + (x : ℚ)) 1 (cz * 16 + (z : ℚ)) (seed + 4) * 3⌋

/-- Spec-side (claim C6): the conditions under which a tree is placed in
column `(x, z)` given surface height `sy`: Forest biome, Grass surface block,
feature noise above 0.95, the column at least 3 cells from every horizontal
chunk edge, and the tree (trunk plus canopy top) fitting under the chunk
height ceiling. -/
def specTreeConds (sinv : ℚ → ℚ) (cx cz seed : ℚ) (d : Store) (x z sy : ℕ) : Prop :=
  biomeAt sinv cx cz seed x z = BIOME_FOREST ∧
  d (indexOf x sy z) = BLOCK_GRASS ∧
  pseudoNoise sinv (cx * 16 + (x : ℚ)) 0 (cz * 16 + (z : ℚ)) (seed + 3) > 95/100 ∧
  2 < x ∧ x < 14 ∧ 2 < z ∧ z < 14 ∧
  (sy : ℤ) + specTreeHeight sinv cx cz seed x z + 2 < 128

/-- A grid holding a single solid cell `p = (x, y, z)` of block type `m`,
with Air everywhere else (claim C7). -/
def singletonGrid (p : ℕ × ℕ × ℕ) (m : ℕ) : Store :=
  fun i => if i = indexOf p.1 p.2.1 p.2.2 then m else 0

/-- A grid holding exactly two solid cells `p` and `q` (as `(x, y, z)`
triples) of the same block type `m`, with Air everywhere else (claim C7). -/
def pairGrid (p q : ℕ × ℕ × ℕ) (m : ℕ) : Store :=
  fun i => if i = indexOf p.1 p.2.1 p.2.2 then m
    else if i = indexOf q.1 q.2.1 q.2.2 then m else 0

/-- A 2×1×1 remesh buffer whose cell 0 is Stone and whose cell 1 holds the
invalid byte value 9 (claim C10). -/
def holeExampleGrid : Store := fun i => if i = 0 then BLOCK_STONE else if i = 1 then 9 else 0

theorem indexOf_lt {x y z : ℕ} (hx : x < 16) (hy : y < 128) (hz : z < 16) :
    indexOf x y z < 32768 := by
  unfold indexOf; omega

theorem indexOf_inj {x y z x' y' z' : ℕ} (hx : x < 16) (hy : y < 128) (hz : z < 16)
    (hx' : x' < 16) (hy' : y' < 128) (hz' : z' < 16)
    (h : indexOf x y z = indexOf x' y' z') : x = x' ∧ y = y' ∧ z = z' := by
  unfold indexOf at h; omega

theorem setBlock_eval (d : Store) (x y z t : ℕ) (hx : x < 16) (hy : y < 128) (hz : z < 16)
    (i : ℕ) :
    setBlock d (x : ℤ) (y : ℤ) (z : ℤ) t i = if i = indexOf x y z then t else d i := by
  unfold setBlock
  rw [if_pos ⟨by omega, by omega, by omega, by omega, by omega, by omega⟩]
  by_cases h : i = indexOf x y z
  · rw [if_pos h, if_pos]
    unfold indexOf at h
    unfold indexOfZ
    omega
  · rw [if_neg h, if_neg]
    unfold indexOf at h
    unfold indexOfZ
    omega

theorem foldl_store_untouched {α : Type} (G : Store → α → Store) :
    ∀ (l : List α) (d : Store) (i : ℕ),
      (∀ (d' : Store) (c : α), c ∈ l → G d' c i = d' i) →
      (l.foldl G d) i = d i := by
  intro l
  induction l with
  | nil => intro d i _; rfl
  | cons c tl ih =>
    intro d i h
    rw [List.foldl_cons, ih (G d c) i (fun d' c' hc' => h d' c' (List.mem_cons_of_mem _ hc'))]
    exact h d c (List.mem_cons_self _ _)

theorem foldl_store_hit {α : Type} (G : Store → α → Store) (P : α → ℕ → Prop)
    (F : α → Store → ℕ → ℕ) :
    ∀ (l : List α),
      List.Pairwise (fun c c' => ∀ j, P c j → P c' j → False) l →
      (∀ (d' : Store) (c : α) (j : ℕ), c ∈ l → ¬ P c j → G d' c j = d' j) →
      (∀ (d' : Store) (c : α) (j : ℕ), c ∈ l → P c j → G d' c j = F c d' j) →
      (∀ (d₁ d₂ : Store) (c : α) (j : ℕ), c ∈ l → P c j →
        (∀ j', P c j' → d₁ j' = d₂ j') → F c d₁ j = F c d₂ j) →
      ∀ (d : Store) (c₀ : α), c₀ ∈ l → ∀ (i : ℕ), P c₀ i →
        (l.foldl G d) i = F c₀ d i := by
  intro l
  induction l with
  | nil => intro _ _ _ _ _ c₀ hc₀; exact absurd hc₀ (List.not_mem_nil _)
  | cons c tl ih =>
    intro hpw hG hGF hF d c₀ hc₀ i hPi
    rw [List.pairwise_cons] at hpw
    rw [List.foldl_cons]
    rcases List.mem_cons.mp hc₀ with rfl | hmem
    · rw [foldl_store_untouched G tl (G d c₀) i
        (fun d' c' hc' => hG d' c' i (List.mem_cons_of_mem _ hc')
          (fun hP' => hpw.1 c' hc' i hPi hP'))]
      exact hGF d c₀ i (List.mem_cons_self _ _) hPi
    · rw [ih hpw.2 (fun d' c' j hc' => hG d' c' j (List.mem_cons_of_mem _ hc'))
        (fun d' c' j hc' => hGF d' c' j (List.mem_cons_of_mem _ hc'))
        (fun d₁ d₂ c' j hc' => hF d₁ d₂ c' j (List.mem_cons_of_mem _ hc'))
        (G d c) c₀ hmem i hPi]
      exact hF (G d c) d c₀ i (List.mem_cons_of_mem _ hmem) hPi
        (fun j' hPj' => hG d c j' (List.mem_cons_self _ _)
          (fun hPc => hpw.1 c₀ hmem j' hPc hPj'))

theorem foldl_product {σ α β : Type} (f : σ → α × β → σ) :
    ∀ (l₁ : List α) (l₂ : List β) (s : σ),
      (l₁ ×ˢ l₂).foldl f s =
      l₁.foldl (fun s a => l₂.foldl (fun s b => f s (a, b)) s) s := by
  intro l₁
  induction l₁ with
  | nil => intro l₂ s; rfl
  | cons a l₁ ih =>
    intro l₂ s
    rw [List.product_cons, List.foldl_append, List.foldl_map, ih, List.foldl_cons]

/-- The full cell list of the generator's x/z/y triple loop, as
`(x, (z, y))` triples in iteration order. -/
def genCells : List (ℕ × ℕ × ℕ) :=
  (List.range 16) ×ˢ ((List.range 16) ×ˢ (List.range 128))

theorem genCells_nodup : genCells.Nodup :=
  (List.nodup_range 16).product ((List.nodup_range 16).product (List.nodup_range 128))

theorem genCells_mem {c : ℕ × ℕ × ℕ} :
    c ∈ genCells ↔ c.1 < 16 ∧ c.2.1 < 16 ∧ c.2.2 < 128 := by
  obtain ⟨x, z, y⟩ := c
  simp [genCells, List.mem_product, List.mem_range]

theorem genCells_pairwise :
    List.Pairwise (fun c c' : ℕ × ℕ × ℕ =>
      ∀ j, j = indexOf c.1 c.2.2 c.2.1 → j = indexOf c'.1 c'.2.2 c'.2.1 → False) genCells := by
  refine List.Pairwise.imp_of_mem ?_ genCells_nodup
  intro c c' hc hc' hne j h1 h2
  rw [genCells_mem] at hc hc'
  obtain ⟨he1, he2, he3⟩ := indexOf_inj hc.1 hc.2.2 hc.2.1 hc'.1 hc'.2.2 hc'.2.1
    (h1 ▸ h2)
  exact hne (Prod.ext he1 (Prod.ext he3 he2))

theorem step1_eq_fold (sinv : ℚ → ℚ) (cx cz seed : ℚ) :
    step1 sinv cx cz seed =
    genCells.foldl
      (fun d c => setBlock d (c.1 : ℤ) (c.2.2 : ℤ) (c.2.1 : ℤ)
        (blockAtY (biomeAt sinv cx cz seed c.1 c.2.1) (thAt sinv cx cz seed c.1 c.2.1) c.2.2))
      emptyStore := by
  unfold genCells
  simp only [foldl_product]
  simp only [step1, biomeAt, thAt]

theorem step1_write_other (sinv : ℚ → ℚ) (cx cz seed : ℚ) :
    ∀ (d' : Store) (c : ℕ × ℕ × ℕ) (j : ℕ), c ∈ genCells →
      ¬ j = indexOf c.1 c.2.2 c.2.1 →
      setBlock d' (c.1 : ℤ) (c.2.2 : ℤ) (c.2.1 : ℤ)
        (blockAtY (biomeAt sinv cx cz seed c.1 c.2.1) (thAt sinv cx cz seed c.1 c.2.1) c.2.2) j
        = d' j := by
  intro d' c j hc hne
  rw [genCells_mem] at hc
  rw [setBlock_eval d' c.1 c.2.2 c.2.1 _ hc.1 hc.2.2 hc.2.1 j, if_neg hne]

theorem step1_write_hit (sinv : ℚ → ℚ) (cx cz seed : ℚ) :
    ∀ (d' : Store) (c : ℕ × ℕ × ℕ) (j : ℕ), c ∈ genCells →
      j = indexOf c.1 c.2.2 c.2.1 →
      setBlock d' (c.1 : ℤ) (c.2.2 : ℤ) (c.2.1 : ℤ)
        (blockAtY (biomeAt sinv cx cz seed c.1 c.2.1) (thAt sinv cx cz seed c.1 c.2.1) c.2.2) j
        = blockAtY (biomeAt sinv cx cz seed c.1 c.2.1) (thAt sinv cx cz seed c.1 c.2.1) c.2.2 := by
  intro d' c j hc hj
  rw [genCells_mem] at hc
  rw [setBlock_eval d' c.1 c.2.2 c.2.1 _ hc.1 hc.2.2 hc.2.1 j, if_pos hj]

theorem step1_value_congr (sinv : ℚ → ℚ) (cx cz seed : ℚ) :
    ∀ (d₁ d₂ : Store) (c : ℕ × ℕ × ℕ) (j : ℕ), c ∈ genCells →
      j = indexOf c.1 c.2.2 c.2.1 →
      (∀ j', j' = indexOf c.1 c.2.2 c.2.1 → d₁ j' = d₂ j') →
      blockAtY (biomeAt sinv cx cz seed c.1 c.2.1) (thAt sinv cx cz seed c.1 c.2.1) c.2.2 =
      blockAtY (biomeAt sinv cx cz seed c.1 c.2.1) (thAt sinv cx cz seed c.1 c.2.1) c.2.2 :=
  fun _ _ _ _ _ _ _ => rfl

/-- Reading back the Step-1 terrain: every in-range cell holds exactly the
fill-rule block of its column. -/
theorem step1_read (sinv : ℚ → ℚ) (cx cz seed : ℚ) {x y z : ℕ}
    (hx : x < 16) (hy : y < 128) (hz : z < 16) :
    step1 sinv cx cz seed (indexOf x y z) =
      blockAtY (biomeAt sinv cx cz seed x z) (thAt sinv cx cz seed x z) y := by
  have H0 := foldl_store_hit
    (fun d c => setBlock d (c.1 : ℤ) (c.2.2 : ℤ) (c.2.1 : ℤ)
      (blockAtY (biomeAt sinv cx cz seed c.1 c.2.1) (thAt sinv cx cz seed c.1 c.2.1) c.2.2))
    (fun c j => j = indexOf c.1 c.2.2 c.2.1)
    (fun c _ _ => blockAtY (biomeAt sinv cx cz seed c.1 c.2.1)
      (thAt sinv cx cz seed c.1 c.2.1) c.2.2)
    genCells genCells_pairwise (step1_write_other sinv cx cz seed)
    (step1_write_hit sinv cx cz seed) (step1_value_congr sinv cx cz seed)
    emptyStore (x, (z, y)) (genCells_mem.mpr ⟨hx, hz, hy⟩) (indexOf x y z) rfl
  rw [step1_eq_fold]
  exact H0

theorem pseudoNoise_nonneg (sinv : ℚ → ℚ) (x y z seed : ℚ) :
    0 ≤ pseudoNoise sinv x y z seed :=
  Int.fract_nonneg _

theorem pseudoNoise_lt_one (sinv : ℚ → ℚ) (x y z seed : ℚ) :
    pseudoNoise sinv x y z seed < 1 :=
  Int.fract_lt_one _

theorem octaveState_invariant (sinv : ℚ → ℚ) (x z seed persistence lacunarity : ℚ)
    (hp : 0 < persistence) :
    ∀ (l : List ℕ) (st : ℚ × ℚ × ℚ × ℚ),
      0 ≤ st.1 → st.1 ≤ st.2.2.2 → 0 < st.2.2.1 → 0 < st.2.2.2 →
      0 ≤ (l.foldl (fun st _ => octaveStep sinv x z seed persistence lacunarity st) st).1 ∧
      (l.foldl (fun st _ => octaveStep sinv x z seed persistence lacunarity st) st).1 ≤
        (l.foldl (fun st _ => octaveStep sinv x z seed persistence lacunarity st) st).2.2.2 ∧
      0 < (l.foldl (fun st _ => octaveStep sinv x z seed persistence lacunarity st) st).2.2.1 ∧
      0 < (l.foldl (fun st _ => octaveStep sinv x z seed persistence lacunarity st) st).2.2.2 := by
  intro l
  induction l with
  | nil => intro st h1 h2 h3 h4; exact ⟨h1, h2, h3, h4⟩
  | cons a tl ih =>
    intro st h1 h2 h3 h4
    rw [List.foldl_cons]
    apply ih
    · exact add_nonneg h1 (mul_nonneg (pseudoNoise_nonneg _ _ _ _ _) (le_of_lt h3))
    · have hpn := pseudoNoise_lt_one sinv (x * st.2.1) 0 (z * st.2.1) seed
      have : pseudoNoise sinv (x * st.2.1) 0 (z * st.2.1) seed * st.2.2.1 ≤ st.2.2.1 :=
        mul_le_of_le_one_left (le_of_lt h3) (le_of_lt hpn)
      calc st.1 + pseudoNoise sinv (x * st.2.1) 0 (z * st.2.1) seed * st.2.2.1
          ≤ st.2.2.2 + st.2.2.1 := add_le_add h2 this
        _ = (octaveStep sinv x z seed persistence lacunarity st).2.2.2 := rfl
    · exact mul_pos h3 hp
    · exact add_pos h4 h3

theorem octaveNoise_bounds (sinv : ℚ → ℚ) (x z seed : ℚ) (octaves : ℕ)
    (persistence lacunarity scale : ℚ) (hoct : 0 < octaves) (hp : 0 < persistence) :
    0 ≤ octaveNoise sinv x z seed octaves persistence lacunarity scale ∧
    octaveNoise sinv x z seed octaves persistence lacunarity scale ≤ 1 := by
  obtain ⟨n, rfl⟩ : ∃ n, octaves = n + 1 := ⟨octaves - 1, by omega⟩
  unfold octaveNoise
  rw [List.range_succ_eq_map, List.foldl_cons]
  have h := octaveState_invariant sinv x z seed persistence lacunarity hp
    ((List.range n).map Nat.succ)
    (octaveStep sinv x z seed persistence lacunarity (0, scale, 1, 0))
    (by
      show (0 : ℚ) ≤ 0 + pseudoNoise sinv (x * scale) 0 (z * scale) seed * 1
      have := pseudoNoise_nonneg sinv (x * scale) 0 (z * scale) seed
      linarith)
    (by
      show (0 : ℚ) + pseudoNoise sinv (x * scale) 0 (z * scale) seed * 1 ≤ 0 + 1
      have := pseudoNoise_lt_one sinv (x * scale) 0 (z * scale) seed
      linarith)
    (by show (0 : ℚ) < 1 * persistence; linarith)
    (by show (0 : ℚ) < 0 + 1; linarith)
  refine ⟨div_nonneg h.1 (le_of_lt h.2.2.2), ?_⟩
  exact (div_le_one h.2.2.2).mpr h.2.1

/-- The generated terrain height never exceeds 100 (worst case: Forest,
`floor (70 + 30 * 1)`). -/
theorem terrainHeightAt_le (sinv : ℚ → ℚ) (seed wx wz : ℚ) (biome : ℕ) :
    terrainHeightAt sinv seed wx wz biome ≤ 100 := by
  unfold terrainHeightAt
  have : ∀ q : ℚ, q < 101 → ⌊q⌋ ≤ 100 := by
    intro q hq
    have := Int.floor_lt.mpr (show q < ((101 : ℤ) : ℚ) by exact_mod_cast hq)
    omega
  apply this
  by_cases h1 : biome = BIOME_DESERT
  · rw [if_pos h1]
    have := octaveNoise_bounds sinv wx wz seed 4 (1/2) 2 (2/100) (by omega) (by norm_num)
    nlinarith [this.1, this.2]
  · rw [if_neg h1]
    by_cases h2 : biome = BIOME_FOREST
    · rw [if_pos h2]
      have := octaveNoise_bounds sinv wx wz seed 6 (1/2) 2 (15/1000) (by omega) (by norm_num)
      nlinarith [this.1, this.2]
    · rw [if_neg h2]
      have := octaveNoise_bounds sinv wx wz seed 5 (1/2) 2 (2/100) (by omega) (by norm_num)
      nlinarith [this.1, this.2]

/-- Step 1 writes Stone only strictly below height 127 (in fact at most 96). -/
theorem step1_stone_low (biome : ℕ) (th : ℤ) (y : ℕ) (hth : th ≤ 100)
    (h : blockAtY biome th y = BLOCK_STONE) : y < 127 := by
  unfold blockAtY at h
  by_cases h1 : (y : ℤ) > th
  · rw [if_pos h1] at h; exact absurd h (by unfold BLOCK_AIR BLOCK_STONE; omega)
  · rw [if_neg h1] at h
    omega

/-- The full cell list of the cave pass (y runs only to 126). -/
def caveCells : List (ℕ × ℕ × ℕ) :=
  (List.range 16) ×ˢ ((List.range 16) ×ˢ (List.range 127))

theorem caveCells_nodup : caveCells.Nodup :=
  (List.nodup_range 16).product ((List.nodup_range 16).product (List.nodup_range 127))

theorem caveCells_mem {c : ℕ × ℕ × ℕ} :
    c ∈ caveCells ↔ c.1 < 16 ∧ c.2.1 < 16 ∧ c.2.2 < 127 := by
  obtain ⟨x, z, y⟩ := c
  simp [caveCells, List.mem_product, List.mem_range]

theorem caveCells_pairwise :
    List.Pairwise (fun c c' : ℕ × ℕ × ℕ =>
      ∀ j, j = indexOf c.1 c.2.2 c.2.1 → j = indexOf c'.1 c'.2.2 c'.2.1 → False) caveCells := by
  refine List.Pairwise.imp_of_mem ?_ caveCells_nodup
  intro c c' hc hc' hne j h1 h2
  rw [caveCells_mem] at hc hc'
  obtain ⟨he1, he2, he3⟩ := indexOf_inj hc.1 (by omega) hc.2.1 hc'.1 (by omega) hc'.2.1
    (h1 ▸ h2)
  exact hne (Prod.ext he1 (Prod.ext he3 he2))

theorem step2_eq_fold (sinv : ℚ → ℚ) (cx cz seed : ℚ) (d0 : Store) :
    step2 sinv cx cz seed d0 =
    caveCells.foldl
      (fun d c =>
        if d (indexOf c.1 c.2.2 c.2.1) = BLOCK_STONE then
          if caveNoiseAt sinv cx cz seed c.1 c.2.2 c.2.1 > 3/4 then
            setBlock d (c.1 : ℤ) (c.2.2 : ℤ) (c.2.1 : ℤ) BLOCK_AIR
          else d
        else d)
      d0 := by
  unfold caveCells
  simp only [foldl_product]
  simp only [step2]

theorem step2_write_other (sinv : ℚ → ℚ) (cx cz seed : ℚ) :
    ∀ (d' : Store) (c : ℕ × ℕ × ℕ) (j : ℕ), c ∈ caveCells →
      ¬ j = indexOf c.1 c.2.2 c.2.1 →
      (if d' (indexOf c.1 c.2.2 c.2.1) = BLOCK_STONE then
        if caveNoiseAt sinv cx cz seed c.1 c.2.2 c.2.1 > 3/4 then
          setBlock d' (c.1 : ℤ) (c.2.2 : ℤ) (c.2.1 : ℤ) BLOCK_AIR
        else d'
      else d') j = d' j := by
  intro d' c j hc hne
  rw [caveCells_mem] at hc
  by_cases h1 : d' (indexOf c.1 c.2.2 c.2.1) = BLOCK_STONE
  · rw [if_pos h1]
    by_cases h2 : caveNoiseAt sinv cx cz seed c.1 c.2.2 c.2.1 > 3/4
    · rw [if_pos h2, setBlock_eval d' c.1 c.2.2 c.2.1 _ hc.1 (by omega) hc.2.1 j, if_neg hne]
    · rw [if_neg h2]
  · rw [if_neg h1]

/-- The value the cave pass leaves at cell `c` as a function of the value it
finds there. -/
def caveOut (sinv : ℚ → ℚ) (cx cz seed : ℚ) (c : ℕ × ℕ × ℕ) (v : ℕ) : ℕ :=
  if v = BLOCK_STONE ∧ caveNoiseAt sinv cx cz seed c.1 c.2.2 c.2.1 > 3/4 then BLOCK_AIR else v

theorem step2_write_hit (sinv : ℚ → ℚ) (cx cz seed : ℚ) :
    ∀ (d' : Store) (c : ℕ × ℕ × ℕ) (j : ℕ), c ∈ caveCells →
      j = indexOf c.1 c.2.2 c.2.1 →
      (if d' (indexOf c.1 c.2.2 c.2.1) = BLOCK_STONE then
        if caveNoiseAt sinv cx cz seed c.1 c.2.2 c.2.1 > 3/4 then
          setBlock d' (c.1 : ℤ) (c.2.2 : ℤ) (c.2.1 : ℤ) BLOCK_AIR
        else d'
      else d') j = caveOut sinv cx cz seed c (d' j) := by
  intro d' c j hc hj
  rw [caveCells_mem] at hc
  subst hj
  unfold caveOut
  by_cases h1 : d' (indexOf c.1 c.2.2 c.2.1) = BLOCK_STONE
  · rw [if_pos h1]
    by_cases h2 : caveNoiseAt sinv cx cz seed c.1 c.2.2 c.2.1 > 3/4
    · rw [if_pos h2, setBlock_eval d' c.1 c.2.2 c.2.1 _ hc.1 (by omega) hc.2.1, if_pos rfl,
        if_pos ⟨h1, h2⟩]
    · rw [if_neg h2, if_neg (fun hh => h2 hh.2)]
  · rw [if_neg h1, if_neg (fun hh => h1 hh.1)]

theorem step2_value_congr (sinv : ℚ → ℚ) (cx cz seed : ℚ) :
    ∀ (d₁ d₂ : Store) (c : ℕ × ℕ × ℕ) (j : ℕ), c ∈ caveCells →
      j = indexOf c.1 c.2.2 c.2.1 →
      (∀ j', j' = indexOf c.1 c.2.2 c.2.1 → d₁ j' = d₂ j') →
      caveOut sinv cx cz seed c (d₁ j) = caveOut sinv cx cz seed c (d₂ j) := by
  intro d₁ d₂ c j _ hj hagree
  rw [hagree j hj]

/-- Reading back the cave pass at a carved layer (`y < 127`): a Stone cell
whose cave noise exceeds 0.75 becomes Air, every other cell keeps its value. -/
theorem step2_read (sinv : ℚ → ℚ) (cx cz seed : ℚ) (d : Store) {x y z : ℕ}
    (hx : x < 16) (hy : y < 127) (hz : z < 16) :
    step2 sinv cx cz seed d (indexOf x y z) =
      caveOut sinv cx cz seed (x, (z, y)) (d (indexOf x y z)) := by
  have H0 := foldl_store_hit
    (fun d c =>
      if d (indexOf c.1 c.2.2 c.2.1) = BLOCK_STONE then
        if caveNoiseAt sinv cx cz seed c.1 c.2.2 c.2.1 > 3/4 then
          setBlock d (c.1 : ℤ) (c.2.2 : ℤ) (c.2.1 : ℤ) BLOCK_AIR
        else d
      else d)
    (fun c j => j = indexOf c.1 c.2.2 c.2.1)
    (fun c d' j => caveOut sinv cx cz seed c (d' j))
    caveCells caveCells_pairwise (step2_write_other sinv cx cz seed)
    (step2_write_hit sinv cx cz seed) (step2_value_congr sinv cx cz seed)
    d (x, (z, y)) (caveCells_mem.mpr ⟨hx, hz, hy⟩) (indexOf x y z) rfl
  rw [step2_eq_fold]
  exact H0

/-- The cave pass does not visit the top layer `y = 127`. -/
theorem step2_read_top (sinv : ℚ → ℚ) (cx cz seed : ℚ) (d : Store) {x z : ℕ}
    (hx : x < 16) (hz : z < 16) :
    step2 sinv cx cz seed d (indexOf x 127 z) = d (indexOf x 127 z) := by
  rw [step2_eq_fold]
  apply foldl_store_untouched
  intro d' c hc
  apply step2_write_other sinv cx cz seed d' c _ hc
  rw [caveCells_mem] at hc
  intro h
  obtain ⟨-, he2, -⟩ := indexOf_inj hx (by omega) hz hc.1 (by omega) hc.2.1 h
  omega

theorem terrainHeight_eq_spec (sinv : ℚ → ℚ) (seed wx wz : ℚ) (biome : ℕ) :
    terrainHeightAt sinv seed wx wz biome = specTerrainHeight sinv seed wx wz biome := by
  unfold terrainHeightAt specTerrainHeight specBase specAmplitude specOctaves specScale
  by_cases h1 : biome = BIOME_DESERT
  · rw [if_pos h1, if_pos h1, if_pos h1, if_pos h1, if_pos h1]
    congr 1
    ring
  · rw [if_neg h1, if_neg h1, if_neg h1, if_neg h1, if_neg h1]
    by_cases h2 : biome = BIOME_FOREST
    · rw [if_pos h2, if_pos h2, if_pos h2, if_pos h2, if_pos h2]
      congr 1
      ring
    · rw [if_neg h2, if_neg h2, if_neg h2, if_neg h2, if_neg h2]
      congr 1
      ring

theorem blockAtY_eq_specFill (biome : ℕ) (th : ℤ) (y : ℕ) :
    blockAtY biome th y = specFill biome th y := by
  unfold blockAtY specFill
  by_cases h1 : (y : ℤ) > th
  · rw [if_pos h1, if_pos h1]
  · rw [if_neg h1, if_neg h1]
    by_cases h2 : (y : ℤ) = th
    · rw [if_pos h2, if_pos h2]
    · rw [if_neg h2, if_neg h2]
      by_cases h3 : (y : ℤ) > th - 4
      · have hc : th - 4 < (y : ℤ) ∧ (y : ℤ) < th := ⟨by omega, by omega⟩
        rw [if_pos h3, if_pos hc]
      · have hc : ¬(th - 4 < (y : ℤ) ∧ (y : ℤ) < th) := by omega
        rw [if_neg h3, if_neg hc]

/-- Claim C3: for every chunk column, Step 1 computes
`terrainHeight = floor(base + amplitude * fractalNoise(...))` from the biome
constant table (Desert 60/10/4/0.02, Plains 64/15/5/0.02, Forest
70/30/6/0.015, persistence 0.5 and lacunarity 2 throughout), and fills every
cell `y` by the rule: Air above `terrainHeight`, Sand/Grass at it, Sand/Dirt
strictly within 4 below it, Stone at depth 4 and below. -/
theorem c3_terrain_column_fill (sinv : ℚ → ℚ) (cx cz seed : ℚ) (x y z : ℕ)
    (hx : x < 16) (hy : y < 128) (hz : z < 16) :
    step1 sinv cx cz seed (indexOf x y z) =
      specFill (biomeAt sinv cx cz seed x z)
        (specTerrainHeight sinv seed (cx * 16 + (x : ℚ)) (cz * 16 + (z : ℚ))
          (biomeAt sinv cx cz seed x z)) y := by
  rw [step1_read sinv cx cz seed hx hy hz, blockAtY_eq_specFill]
  unfold thAt
  rw [terrainHeight_eq_spec]

/-- Witness for C3 at `sinv = 0`, chunk (0,0), seed 0, cell (0,0,0). -/
theorem c3_terrain_column_fill_witness :
    (0 : ℕ) < 16 ∧ (0 : ℕ) < 128 ∧
    step1 (fun _ => 0) 0 0 0 (indexOf 0 0 0) =
      specFill (biomeAt (fun _ => 0) 0 0 0 0 0)
        (specTerrainHeight (fun _ => 0) 0 (0 * 16 + ((0 : ℕ) : ℚ)) (0 * 16 + ((0 : ℕ) : ℚ))
          (biomeAt (fun _ => 0) 0 0 0 0 0)) 0 :=
  ⟨by norm_num, by norm_num,
    c3_terrain_column_fill (fun _ => 0) 0 0 0 0 0 0 (by norm_num) (by norm_num) (by norm_num)⟩

/-- Claim C5: the cave pass changes no cell whose pre-carve value is not
Stone; every Stone cell whose cave noise exceeds 0.75 is set to Air, and
every other Stone cell is left unchanged. -/
theorem c5_cave_invariant (sinv : ℚ → ℚ) (cx cz seed : ℚ) (x y z : ℕ)
    (hx : x < 16) (hy : y < 128) (hz : z < 16) :
    (step1 sinv cx cz seed (indexOf x y z) ≠ BLOCK_STONE →
      step2 sinv cx cz seed (step1 sinv cx cz seed) (indexOf x y z) =
        step1 sinv cx cz seed (indexOf x y z)) ∧
    (step1 sinv cx cz seed (indexOf x y z) = BLOCK_STONE →
      step2 sinv cx cz seed (step1 sinv cx cz seed) (indexOf x y z) =
        (if caveNoiseAt sinv cx cz seed x y z > 3/4 then BLOCK_AIR
         else step1 sinv cx cz seed (indexOf x y z))) := by
  by_cases hy' : y < 127
  · rw [step2_read sinv cx cz seed _ hx hy' hz]
    constructor
    · intro hne
      unfold caveOut
      rw [if_neg (fun hh => hne hh.1)]
    · intro hst
      unfold caveOut
      by_cases hn : caveNoiseAt sinv cx cz seed x y z > 3/4
      · rw [if_pos ⟨hst, hn⟩, if_pos hn]
      · rw [if_neg (fun hh => hn hh.2), if_neg hn]
  · have hy127 : y = 127 := by omega
    subst hy127
    rw [step2_read_top sinv cx cz seed _ hx hz]
    constructor
    · intro _; rfl
    · intro hst
      rw [step1_read sinv cx cz seed hx (by omega) hz] at hst
      have := step1_stone_low _ _ _ (terrainHeightAt_le sinv seed _ _ _) hst
      omega

/-- Witness for C5 at `sinv = 0`, chunk (0,0), seed 0, cell (0,0,0). -/
theorem c5_cave_invariant_witness :
    (0 : ℕ) < 16 ∧
    ((step1 (fun _ => 0) 0 0 0 (indexOf 0 0 0) ≠ BLOCK_STONE →
      step2 (fun _ => 0) 0 0 0 (step1 (fun _ => 0) 0 0 0) (indexOf 0 0 0) =
        step1 (fun _ => 0) 0 0 0 (indexOf 0 0 0)) ∧
    (step1 (fun _ => 0) 0 0 0 (indexOf 0 0 0) = BLOCK_STONE →
      step2 (fun _ => 0) 0 0 0 (step1 (fun _ => 0) 0 0 0) (indexOf 0 0 0) =
        (if caveNoiseAt (fun _ => 0) 0 0 0 0 0 0 > 3/4 then BLOCK_AIR
         else step1 (fun _ => 0) 0 0 0 (indexOf 0 0 0)))) :=
  ⟨by norm_num, c5_cave_invariant (fun _ => 0) 0 0 0 0 0 0 (by norm_num) (by norm_num) (by norm_num)⟩

/-- Claim C8: chunk generation plus meshing is a deterministic function of
`(chunkX, chunkZ, seed)` — equal inputs give byte-identical voxel buffers and
identical mesh buffers. -/
theorem c8_generation_deterministic (sinv : ℚ → ℚ) (cx cz seed cx' cz' seed' : ℚ)
    (h1 : cx = cx') (h2 : cz = cz') (h3 : seed = seed') :
    generateChunkData sinv cx cz seed = generateChunkData sinv cx' cz' seed' ∧
    greedyMeshVoxel (generateChunkData sinv cx cz seed) 16 128 16 =
      greedyMeshVoxel (generateChunkData sinv cx' cz' seed') 16 128 16 := by
  subst h1
  subst h2
  subst h3
  exact ⟨rfl, rfl⟩

/-- Witness for C8 at `sinv = 0`, chunk (1,2), seed 3. -/
theorem c8_generation_deterministic_witness :
    (1 : ℚ) = 1 ∧
    (generateChunkData (fun _ => 0) 1 2 3 = generateChunkData (fun _ => 0) 1 2 3 ∧
    greedyMeshVoxel (generateChunkData (fun _ => 0) 1 2 3) 16 128 16 =
      greedyMeshVoxel (generateChunkData (fun _ => 0) 1 2 3) 16 128 16) :=
  ⟨rfl, c8_generation_deterministic (fun _ => 0) 1 2 3 1 2 3 rfl rfl rfl⟩

/-- Claim C9: `pointNoise` always lies in [0,1) and `fractalNoise`, the
amplitude-normalised octave sum, lies in [0,1] for any positive octave count
(with the positive persistence the generator always uses). -/
theorem c9_noise_bounded (sinv : ℚ → ℚ) (x y z seed xq zq persistence lacunarity scale : ℚ)
    (octaves : ℕ) :
    (0 ≤ pseudoNoise sinv x y z seed ∧ pseudoNoise sinv x y z seed < 1) ∧
    (0 < octaves → 0 < persistence →
      0 ≤ octaveNoise sinv xq zq seed octaves persistence lacunarity scale ∧
      octaveNoise sinv xq zq seed octaves persistence lacunarity scale ≤ 1) :=
  ⟨⟨pseudoNoise_nonneg sinv x y z seed, pseudoNoise_lt_one sinv x y z seed⟩,
    fun h1 h2 => octaveNoise_bounds sinv xq zq seed octaves persistence lacunarity scale h1 h2⟩

/-- Witness for C9 at `sinv = 0`, five octaves, persistence 0.5. -/
theorem c9_noise_bounded_witness :
    (0 : ℕ) < 5 ∧ (0 : ℚ) < 1/2 ∧
    ((0 ≤ pseudoNoise (fun _ => 0) 0 0 0 0 ∧ pseudoNoise (fun _ => 0) 0 0 0 0 < 1) ∧
    (0 < (5 : ℕ) → 0 < (1/2 : ℚ) →
      0 ≤ octaveNoise (fun _ => 0) 0 0 0 5 (1/2) 2 (2/100) ∧
      octaveNoise (fun _ => 0) 0 0 0 5 (1/2) 2 (2/100) ≤ 1)) :=
  ⟨by norm_num, by norm_num,
    c9_noise_bounded (fun _ => 0) 0 0 0 0 0 0 (1/2) 2 (2/100) 5⟩

theorem mappendOut_assoc (a b c : MeshOut) :
    mappendOut (mappendOut a b) c = mappendOut a (mappendOut b c) := by
  unfold mappendOut
  simp [List.append_assoc]

theorem mappendOut_empty_left (a : MeshOut) : mappendOut memptyOut a = a := by
  unfold mappendOut memptyOut
  simp

theorem mappendOut_empty_right (a : MeshOut) : mappendOut a memptyOut = a := by
  unfold mappendOut memptyOut
  simp

theorem joinMesh_cons (m : MeshOut) (l : List MeshOut) :
    joinMesh (m :: l) = mappendOut m (joinMesh l) := rfl

theorem foldl_mappend (g : ℕ × ℕ × ℕ → MeshOut) :
    ∀ (l : List (ℕ × ℕ × ℕ)) (a : MeshOut),
      l.foldl (fun acc x => mappendOut acc (g x)) a = mappendOut a (joinMesh (l.map g)) := by
  intro l
  induction l with
  | nil => intro a; rw [List.foldl_nil, List.map_nil]; exact (mappendOut_empty_right a).symm
  | cons x tl ih =>
    intro a
    rw [List.foldl_cons, ih, List.map_cons, joinMesh_cons, mappendOut_assoc]

theorem foldl_mappend_filter (p : Face → Prop) [DecidablePred p] (g : Face → MeshOut) :
    ∀ (l : List Face) (a : MeshOut),
      l.foldl (fun acc x => if p x then mappendOut acc (g x) else acc) a =
      mappendOut a (joinMesh ((l.filter (fun x => decide (p x))).map g)) := by
  intro l
  induction l with
  | nil => intro a; rw [List.foldl_nil, List.filter_nil, List.map_nil]
           exact (mappendOut_empty_right a).symm
  | cons x tl ih =>
    intro a
    rw [List.foldl_cons]
    by_cases hx : p x
    · rw [if_pos hx, ih]
      have hf : (x :: tl).filter (fun x => decide (p x)) =
          x :: tl.filter (fun x => decide (p x)) := by
        simp [List.filter_cons, hx]
      rw [hf, List.map_cons, joinMesh_cons, mappendOut_assoc]
    · rw [if_neg hx, ih]
      have hf : (x :: tl).filter (fun x => decide (p x)) =
          tl.filter (fun x => decide (p x)) := by
        simp [List.filter_cons, hx]
      rw [hf]

theorem meshGetBlock_in (d : Store) (sx sy sz : ℕ) {x y z : ℕ}
    (hx : x < sx) (hy : y < sy) (hz : z < sz) :
    meshGetBlock d sx sy sz (x : ℤ) (y : ℤ) (z : ℤ) =
      d ((meshIndexOf sy sz (x : ℤ) (y : ℤ) (z : ℤ)).toNat) := by
  unfold meshGetBlock
  rw [if_neg]
  push_neg
  refine ⟨by omega, by exact_mod_cast hx, by omega, by exact_mod_cast hy, by omega,
    by exact_mod_cast hz⟩

theorem specAirAt_eq (d : Store) (sx sy sz : ℕ) (x y z : ℤ) :
    specAirAt d sx sy sz x y z = true ↔ meshGetBlock d sx sy sz x y z = BLOCK_AIR := by
  unfold specAirAt meshGetBlock
  by_cases h : x < 0 ∨ (sx : ℤ) ≤ x ∨ y < 0 ∨ (sy : ℤ) ≤ y ∨ z < 0 ∨ (sz : ℤ) ≤ z
  · simp [h]
  · simp [h]

theorem MATERIALS_isSome {b : ℕ} (h0 : b ≠ 0) (h7 : b ≤ 7) :
    MATERIALS b = some ((MATERIALS b).getD 0) := by
  unfold MATERIALS
  unfold BLOCK_DIRT BLOCK_GRASS BLOCK_STONE BLOCK_SAND BLOCK_LOG BLOCK_LEAVES BLOCK_CACTUS
  interval_cases b <;> simp_all

theorem specVisible_eq (d : Store) (sx sy sz : ℕ) (c : ℕ × ℕ × ℕ) (f : Face) :
    specVisible d sx sy sz c f =
      decide (meshGetBlock d sx sy sz ((c.1 : ℤ) + f.dir.1) ((c.2.2 : ℤ) + f.dir.2.1)
        ((c.2.1 : ℤ) + f.dir.2.2) = BLOCK_AIR) := by
  unfold specVisible
  by_cases h : meshGetBlock d sx sy sz ((c.1 : ℤ) + f.dir.1) ((c.2.2 : ℤ) + f.dir.2.1)
      ((c.2.1 : ℤ) + f.dir.2.2) = BLOCK_AIR
  · rw [(specAirAt_eq d sx sy sz _ _ _).mpr h]
    simp [h]
  · cases hB : specAirAt d sx sy sz ((c.1 : ℤ) + f.dir.1) ((c.2.2 : ℤ) + f.dir.2.1)
        ((c.2.1 : ℤ) + f.dir.2.2) with
    | false => simp [h]
    | true => exact absurd ((specAirAt_eq d sx sy sz _ _ _).mp hB) h

/-- Characterisation of the mesher's per-cell work through the spec-side
visibility predicate, for a cell whose byte value is a valid block type. -/
theorem meshCell_eq (d : Store) (sx sy sz : ℕ) {x z y : ℕ}
    (hx : x < sx) (hz : z < sz) (hy : y < sy)
    (h7 : d ((meshIndexOf sy sz (x : ℤ) (y : ℤ) (z : ℤ)).toNat) ≤ 7) :
    meshCell d sx sy sz x z y =
      if d ((meshIndexOf sy sz (x : ℤ) (y : ℤ) (z : ℤ)).toNat) = BLOCK_AIR then memptyOut
      else
        joinMesh ((FACES.filter (specVisible d sx sy sz (x, z, y))).map
          (fun f => emitFace f x y z
            (rgbOf ((MATERIALS (d ((meshIndexOf sy sz (x : ℤ) (y : ℤ) (z : ℤ)).toNat))).getD 0)).1
            (rgbOf ((MATERIALS (d ((meshIndexOf sy sz (x : ℤ) (y : ℤ) (z : ℤ)).toNat))).getD 0)).2.1
            (rgbOf ((MATERIALS (d ((meshIndexOf sy sz (x : ℤ) (y : ℤ) (z : ℤ)).toNat))).getD 0)).2.2)) := by
  unfold meshCell
  rw [meshGetBlock_in d sx sy sz hx hy hz]
  by_cases hv : d ((meshIndexOf sy sz (x : ℤ) (y : ℤ) (z : ℤ)).toNat) = BLOCK_AIR
  · rw [if_pos hv, if_pos hv]
  · rw [if_neg hv, if_neg hv, MATERIALS_isSome hv h7]
    dsimp only
    rw [foldl_mappend_filter
      (fun f => meshGetBlock d sx sy sz ((x : ℤ) + f.dir.1) ((y : ℤ) + f.dir.2.1)
        ((z : ℤ) + f.dir.2.2) = BLOCK_AIR)
      _ FACES memptyOut, mappendOut_empty_left]
    have hfl : List.filter
        (fun f => decide (meshGetBlock d sx sy sz ((x : ℤ) + f.dir.1) ((y : ℤ) + f.dir.2.1)
          ((z : ℤ) + f.dir.2.2) = BLOCK_AIR)) FACES
        = List.filter (specVisible d sx sy sz (x, z, y)) FACES :=
      List.filter_congr (fun f _ => (specVisible_eq d sx sy sz (x, z, y) f).symm)
    rw [hfl]
    congr 1


theorem joinMesh_append (l₁ l₂ : List MeshOut) :
    joinMesh (l₁ ++ l₂) = mappendOut (joinMesh l₁) (joinMesh l₂) := by
  induction l₁ with
  | nil => rw [List.nil_append]; exact (mappendOut_empty_left _).symm
  | cons m tl ih => rw [List.cons_append, joinMesh_cons, joinMesh_cons, ih, mappendOut_assoc]

theorem joinMesh_flatMap {α : Type} (g : α → List MeshOut) (l : List α) :
    joinMesh (l.flatMap g) = joinMesh (l.map (fun a => joinMesh (g a))) := by
  induction l with
  | nil => rfl
  | cons a tl ih =>
    rw [List.flatMap_cons, joinMesh_append, List.map_cons, joinMesh_cons, ih]

theorem greedy_eq_fold (d : Store) (sx sy sz : ℕ) :
    greedyMeshVoxel d sx sy sz =
    ((List.range sx) ×ˢ ((List.range sz) ×ˢ (List.range sy))).foldl
      (fun acc c => mappendOut acc (meshCell d sx sy sz c.1 c.2.1 c.2.2)) memptyOut := by
  simp only [foldl_product]
  simp only [greedyMeshVoxel]

theorem greedy_eq_join (d : Store) (sx sy sz : ℕ) :
    greedyMeshVoxel d sx sy sz =
      joinMesh ((specCells sx sy sz).map (fun c => meshCell d sx sy sz c.1 c.2.1 c.2.2)) := by
  rw [greedy_eq_fold, foldl_mappend, mappendOut_empty_left]
  unfold specCells
  rw [List.map_map]
  rfl

theorem specCells_mem {sx sy sz : ℕ} {c : ℕ × ℕ × ℕ} :
    c ∈ specCells sx sy sz ↔ c.1 < sx ∧ c.2.1 < sz ∧ c.2.2 < sy := by
  obtain ⟨x, z, y⟩ := c
  unfold specCells
  constructor
  · intro h
    obtain ⟨p, hp, he⟩ := List.mem_map.mp h
    obtain ⟨hp1, hp2⟩ := List.mem_product.mp hp
    obtain ⟨hp21, hp22⟩ := List.mem_product.mp hp2
    obtain ⟨he1, he2, he3⟩ : p.1 = x ∧ p.2.1 = z ∧ p.2.2 = y := by
      rw [Prod.ext_iff, Prod.ext_iff] at he
      exact ⟨he.1, he.2.1, he.2.2⟩
    subst he1
    subst he2
    subst he3
    exact ⟨List.mem_range.mp hp1, List.mem_range.mp hp21, List.mem_range.mp hp22⟩
  · intro ⟨h1, h2, h3⟩
    refine List.mem_map.mpr ⟨(x, (z, y)), ?_, rfl⟩
    exact List.mem_product.mpr ⟨List.mem_range.mpr h1, List.mem_product.mpr
      ⟨List.mem_range.mpr h2, List.mem_range.mpr h3⟩⟩

/-- The face-culling mesher agrees with the specification's description of
its output on every grid of valid block types. -/
theorem mesh_eq_spec (d : Store) (sx sy sz : ℕ) (h7 : ∀ i, d i ≤ 7) :
    greedyMeshVoxel d sx sy sz = specMesh d sx sy sz := by
  rw [greedy_eq_join]
  unfold specMesh specFaceList
  rw [List.map_flatMap, joinMesh_flatMap]
  congr 1
  apply List.map_congr_left
  intro c hc
  rw [specCells_mem] at hc
  obtain ⟨x, z, y⟩ := c
  obtain ⟨hx, hz, hy⟩ := hc
  rw [meshCell_eq d sx sy sz hx hz hy (h7 _)]
  by_cases hv : d ((meshIndexOf sy sz (x : ℤ) (y : ℤ) (z : ℤ)).toNat) = BLOCK_AIR
  · rw [if_pos hv]
    have : (if d ((meshIndexOf sy sz ((x, z, y).1 : ℤ) ((x, z, y).2.2 : ℤ)
        ((x, z, y).2.1 : ℤ)).toNat) = BLOCK_AIR then ([] : List ((ℕ × ℕ × ℕ) × Face))
        else (FACES.filter (specVisible d sx sy sz (x, z, y))).map fun f => ((x, z, y), f)) =
        [] := if_pos hv
    rw [this]
    rfl
  · rw [if_neg hv]
    have : (if d ((meshIndexOf sy sz ((x, z, y).1 : ℤ) ((x, z, y).2.2 : ℤ)
        ((x, z, y).2.1 : ℤ)).toNat) = BLOCK_AIR then ([] : List ((ℕ × ℕ × ℕ) × Face))
        else (FACES.filter (specVisible d sx sy sz (x, z, y))).map fun f => ((x, z, y), f)) =
        (FACES.filter (specVisible d sx sy sz (x, z, y))).map fun f => ((x, z, y), f) :=
      if_neg hv
    rw [this, List.map_map]
    rfl

/-- Claim C4: on every grid of valid block-type bytes the mesher emits, for
each non-Air cell and each of the six directions, a face exactly when the
neighbouring cell reads as Air (out-of-bounds neighbours read as Air), and
each emitted face consists of two triangles — six vertices — whose normals
equal the face direction, whose UVs are (0,0), and whose colours are the
cell's material RGB normalised to [0,1]. -/
theorem c4_mesher_matches_spec (d : Store) (sx sy sz : ℕ) (h7 : ∀ i, d i ≤ 7) :
    greedyMeshVoxel d sx sy sz = specMesh d sx sy sz :=
  mesh_eq_spec d sx sy sz h7

/-- Witness for C4 on the all-Air grid with a 1×1×1 extent. -/
theorem c4_mesher_matches_spec_witness :
    (∀ i, emptyStore i ≤ 7) ∧
    greedyMeshVoxel emptyStore 1 1 1 = specMesh emptyStore 1 1 1 :=
  ⟨fun _ => Nat.zero_le 7, c4_mesher_matches_spec emptyStore 1 1 1 (fun _ => Nat.zero_le 7)⟩

theorem emitFace_lengths (f : Face) (x y z : ℕ) (r g b : ℚ) :
    (emitFace f x y z r g b).positions.length = 18 ∧
    (emitFace f x y z r g b).normals.length = 18 ∧
    (emitFace f x y z r g b).colors.length = 18 ∧
    (emitFace f x y z r g b).uvs.length = 12 := by
  unfold emitFace pushCorner
  refine ⟨by simp, by simp, by simp, by simp⟩

theorem joinMesh_positions (l : List MeshOut) :
    (joinMesh l).positions = (l.map MeshOut.positions).flatten := by
  induction l with
  | nil => rfl
  | cons m tl ih => rw [joinMesh_cons, List.map_cons, List.flatten_cons, ← ih]; rfl

theorem joinMesh_normals (l : List MeshOut) :
    (joinMesh l).normals = (l.map MeshOut.normals).flatten := by
  induction l with
  | nil => rfl
  | cons m tl ih => rw [joinMesh_cons, List.map_cons, List.flatten_cons, ← ih]; rfl

theorem joinMesh_colors (l : List MeshOut) :
    (joinMesh l).colors = (l.map MeshOut.colors).flatten := by
  induction l with
  | nil => rfl
  | cons m tl ih => rw [joinMesh_cons, List.map_cons, List.flatten_cons, ← ih]; rfl

theorem joinMesh_uvs (l : List MeshOut) :
    (joinMesh l).uvs = (l.map MeshOut.uvs).flatten := by
  induction l with
  | nil => rfl
  | cons m tl ih => rw [joinMesh_cons, List.map_cons, List.flatten_cons, ← ih]; rfl

theorem sum_map_const_len {α : Type} (l : List α) (k : ℕ) (f : α → ℕ)
    (h : ∀ a ∈ l, f a = k) : (l.map f).sum = k * l.length := by
  induction l with
  | nil => simp
  | cons a tl ih =>
    rw [List.map_cons, List.sum_cons, h a (List.mem_cons_self _ _),
      ih (fun a ha => h a (List.mem_cons_of_mem _ ha)), List.length_cons]
    ring

/-- The four buffer lengths of the described mesh, in terms of the number of
emitted faces. -/
theorem specMesh_lengths (d : Store) (sx sy sz : ℕ) :
    (specMesh d sx sy sz).positions.length = 18 * (specFaceList d sx sy sz).length ∧
    (specMesh d sx sy sz).normals.length = 18 * (specFaceList d sx sy sz).length ∧
    (specMesh d sx sy sz).colors.length = 18 * (specFaceList d sx sy sz).length ∧
    (specMesh d sx sy sz).uvs.length = 12 * (specFaceList d sx sy sz).length := by
  unfold specMesh
  refine ⟨?_, ?_, ?_, ?_⟩
  · rw [joinMesh_positions, List.length_flatten, List.map_map, List.map_map]
    apply sum_map_const_len
    intro cf hcf
    dsimp only [Function.comp]
    exact (emitFace_lengths _ _ _ _ _ _ _).1
  · rw [joinMesh_normals, List.length_flatten, List.map_map, List.map_map]
    apply sum_map_const_len
    intro cf hcf
    dsimp only [Function.comp]
    exact (emitFace_lengths _ _ _ _ _ _ _).2.1
  · rw [joinMesh_colors, List.length_flatten, List.map_map, List.map_map]
    apply sum_map_const_len
    intro cf hcf
    dsimp only [Function.comp]
    exact (emitFace_lengths _ _ _ _ _ _ _).2.2.1
  · rw [joinMesh_uvs, List.length_flatten, List.map_map, List.map_map]
    apply sum_map_const_len
    intro cf hcf
    dsimp only [Function.comp]
    exact (emitFace_lengths _ _ _ _ _ _ _).2.2.2

/-- The number of emitted faces: per non-Air cell, the number of visible
faces. -/
theorem specFaceList_length (d : Store) (sx sy sz : ℕ) :
    (specFaceList d sx sy sz).length =
      ((specCells sx sy sz).map (fun c =>
        if d ((meshIndexOf sy sz (c.1 : ℤ) (c.2.2 : ℤ) (c.2.1 : ℤ)).toNat) = BLOCK_AIR then 0
        else (FACES.filter (specVisible d sx sy sz c)).length)).sum := by
  unfold specFaceList
  rw [List.length_flatMap]
  congr 1
  apply List.map_congr_left
  intro c _
  dsimp only [Function.comp]
  by_cases hv : d ((meshIndexOf sy sz (c.1 : ℤ) (c.2.2 : ℤ) (c.2.1 : ℤ)).toNat) = BLOCK_AIR
  · rw [if_pos hv, if_pos hv]
    rfl
  · rw [if_neg hv, if_neg hv, List.length_map]

theorem sum_map_single {α : Type} [DecidableEq α] :
    ∀ (l : List α), l.Nodup → ∀ (p : α), p ∈ l → ∀ (f : α → ℕ),
      (∀ c ∈ l, c ≠ p → f c = 0) → (l.map f).sum = f p := by
  intro l
  induction l with
  | nil => intro _ p hp; exact absurd hp (List.not_mem_nil _)
  | cons a tl ih =>
    intro hnd p hp f h0
    rw [List.nodup_cons] at hnd
    rw [List.map_cons, List.sum_cons]
    rcases List.mem_cons.mp hp with rfl | hmem
    · have : (tl.map f).sum = 0 := by
        apply List.sum_eq_zero
        intro v hv
        obtain ⟨c, hc, rfl⟩ := List.mem_map.mp hv
        exact h0 c (List.mem_cons_of_mem _ hc) (fun he => hnd.1 (he ▸ hc))
      omega
    · have ha : f a = 0 :=
        h0 a (List.mem_cons_self _ _) (fun he => hnd.1 (he ▸ hmem))
      rw [ha, ih hnd.2 p hmem f (fun c hc => h0 c (List.mem_cons_of_mem _ hc))]
      omega

theorem sum_map_pair {α : Type} [DecidableEq α] :
    ∀ (l : List α), l.Nodup → ∀ (p q : α), p ∈ l → q ∈ l → p ≠ q → ∀ (f : α → ℕ),
      (∀ c ∈ l, c ≠ p → c ≠ q → f c = 0) → (l.map f).sum = f p + f q := by
  intro l
  induction l with
  | nil => intro _ p q hp; exact absurd hp (List.not_mem_nil _)
  | cons a tl ih =>
    intro hnd p q hp hq hpq f h0
    rw [List.nodup_cons] at hnd
    rw [List.map_cons, List.sum_cons]
    rcases List.mem_cons.mp hp with rfl | hpmem
    · have hqmem : q ∈ tl := by
        rcases List.mem_cons.mp hq with rfl | h
        · exact absurd rfl hpq
        · exact h
      rw [sum_map_single tl hnd.2 q hqmem f
        (fun c hc hcq => h0 c (List.mem_cons_of_mem _ hc)
          (fun he => hnd.1 (he ▸ hc)) hcq)]
    · rcases List.mem_cons.mp hq with rfl | hqmem
      · rw [sum_map_single tl hnd.2 p hpmem f
          (fun c hc hcp => h0 c (List.mem_cons_of_mem _ hc) hcp
            (fun he => hnd.1 (he ▸ hc)))]
        omega
      · have ha : f a = 0 :=
          h0 a (List.mem_cons_self _ _) (fun he => hnd.1 (he ▸ hpmem))
            (fun he => hnd.1 (he ▸ hqmem))
        rw [ha, ih hnd.2 p q hpmem hqmem hpq f
          (fun c hc => h0 c (List.mem_cons_of_mem _ hc))]
        omega

theorem specCells_nodup (sx sy sz : ℕ) : (specCells sx sy sz).Nodup := by
  unfold specCells
  apply List.Nodup.map
  · intro a b hab
    obtain ⟨a1, a2, a3⟩ := a
    obtain ⟨b1, b2, b3⟩ := b
    rw [Prod.ext_iff, Prod.ext_iff] at hab
    obtain ⟨h1, h2, h3⟩ := hab
    simp only at h1 h2 h3
    rw [h1, h2, h3]
  · exact (List.nodup_range sx).product ((List.nodup_range sz).product (List.nodup_range sy))

theorem meshIndexOf_toNat (x y z : ℕ) :
    (meshIndexOf 128 16 (x : ℤ) (y : ℤ) (z : ℤ)).toNat = indexOf x y z := by
  unfold meshIndexOf indexOf
  omega

theorem singletonGrid_valid (p : ℕ × ℕ × ℕ) (m : ℕ) (hm : m ≤ 7) :
    ∀ i, singletonGrid p m i ≤ 7 := by
  intro i
  unfold singletonGrid
  split
  · exact hm
  · omega

theorem pairGrid_valid (p q : ℕ × ℕ × ℕ) (m : ℕ) (hm : m ≤ 7) :
    ∀ i, pairGrid p q m i ≤ 7 := by
  intro i
  unfold pairGrid
  split
  · exact hm
  · split
    · exact hm
    · omega

theorem singletonGrid_air (px py pz : ℕ) (m : ℕ)
    (hp1 : px < 16) (hp2 : py < 128) (hp3 : pz < 16) (nx ny nz : ℤ)
    (hne : ¬(nx = (px : ℤ) ∧ ny = (py : ℤ) ∧ nz = (pz : ℤ))) :
    specAirAt (singletonGrid (px, py, pz) m) 16 128 16 nx ny nz = true := by
  unfold specAirAt
  by_cases hout : nx < 0 ∨ (16 : ℤ) ≤ nx ∨ ny < 0 ∨ (128 : ℤ) ≤ ny ∨ nz < 0 ∨ (16 : ℤ) ≤ nz
  · simp [hout]
  · have hread : singletonGrid (px, py, pz) m ((meshIndexOf 128 16 nx ny nz).toNat) = 0 := by
      unfold singletonGrid
      rw [if_neg]
      unfold meshIndexOf indexOf
      dsimp only
      push_neg at hout
      omega
    simp [hread, BLOCK_AIR]

theorem pairGrid_air (px py pz qx qy qz : ℕ) (m : ℕ)
    (hp1 : px < 16) (hp2 : py < 128) (hp3 : pz < 16)
    (hq1 : qx < 16) (hq2 : qy < 128) (hq3 : qz < 16) (nx ny nz : ℤ)
    (hnep : ¬(nx = (px : ℤ) ∧ ny = (py : ℤ) ∧ nz = (pz : ℤ)))
    (hneq : ¬(nx = (qx : ℤ) ∧ ny = (qy : ℤ) ∧ nz = (qz : ℤ))) :
    specAirAt (pairGrid (px, py, pz) (qx, qy, qz) m) 16 128 16 nx ny nz = true := by
  unfold specAirAt
  by_cases hout : nx < 0 ∨ (16 : ℤ) ≤ nx ∨ ny < 0 ∨ (128 : ℤ) ≤ ny ∨ nz < 0 ∨ (16 : ℤ) ≤ nz
  · simp [hout]
  · have hread : pairGrid (px, py, pz) (qx, qy, qz) m ((meshIndexOf 128 16 nx ny nz).toNat)
        = 0 := by
      unfold pairGrid
      rw [if_neg, if_neg]
      · unfold meshIndexOf indexOf
        dsimp only
        push_neg at hout
        omega
      · unfold meshIndexOf indexOf
        dsimp only
        push_neg at hout
        omega
    simp [hread, BLOCK_AIR]

theorem pairGrid_blocked (px py pz qx qy qz : ℕ) (m : ℕ) (hm0 : m ≠ 0)
    (hq1 : qx < 16) (hq2 : qy < 128) (hq3 : qz < 16) (nx ny nz : ℤ)
    (he1 : nx = (qx : ℤ)) (he2 : ny = (qy : ℤ)) (he3 : nz = (qz : ℤ)) :
    specAirAt (pairGrid (px, py, pz) (qx, qy, qz) m) 16 128 16 nx ny nz = false := by
  subst he1
  subst he2
  subst he3
  unfold specAirAt
  have hout : ¬((qx : ℤ) < 0 ∨ (16 : ℤ) ≤ (qx : ℤ) ∨ (qy : ℤ) < 0 ∨ (128 : ℤ) ≤ (qy : ℤ) ∨
      (qz : ℤ) < 0 ∨ (16 : ℤ) ≤ (qz : ℤ)) := by omega
  have hread : pairGrid (px, py, pz) (qx, qy, qz) m
      ((meshIndexOf 128 16 (qx : ℤ) (qy : ℤ) (qz : ℤ)).toNat) = m := by
    unfold pairGrid
    rw [meshIndexOf_toNat]
    dsimp only
    by_cases h : indexOf qx qy qz = indexOf px py pz
    · rw [if_pos h]
    · rw [if_neg h, if_pos rfl]
  simp [hread, hm0, hout, BLOCK_AIR]
  exact ⟨hq1, hq2, hq3⟩

theorem singleton_filter_all (px py pz m : ℕ)
    (hx : px < 16) (hy : py < 128) (hz : pz < 16) :
    FACES.filter (specVisible (singletonGrid (px, py, pz) m) 16 128 16 (px, pz, py)) = FACES := by
  rw [List.filter_eq_self]
  intro f hf
  unfold FACES at hf
  fin_cases hf <;>
  · unfold specVisible
    dsimp only
    apply singletonGrid_air px py pz m hx hy hz
    dsimp only
    omega

theorem singleton_cell_value (px py pz m : ℕ) :
    singletonGrid (px, py, pz) m ((meshIndexOf 128 16 (px : ℤ) (py : ℤ) (pz : ℤ)).toNat) = m := by
  unfold singletonGrid
  rw [meshIndexOf_toNat]
  dsimp only
  rw [if_pos rfl]

theorem singleton_faceList_length (px py pz m : ℕ)
    (hx : px < 16) (hy : py < 128) (hz : pz < 16) (hm0 : m ≠ 0) :
    (specFaceList (singletonGrid (px, py, pz) m) 16 128 16).length = 6 := by
  rw [specFaceList_length]
  rw [sum_map_single (specCells 16 128 16) (specCells_nodup 16 128 16) (px, pz, py)
    (specCells_mem.mpr ⟨hx, hz, hy⟩) _ ?_]
  · dsimp only
    rw [if_neg (by rw [singleton_cell_value px py pz m]; unfold BLOCK_AIR; exact hm0)]
    rw [singleton_filter_all px py pz m hx hy hz]
    rfl
  · intro c hc hne
    rw [specCells_mem] at hc
    have hval : singletonGrid (px, py, pz) m
        ((meshIndexOf 128 16 (c.1 : ℤ) (c.2.2 : ℤ) (c.2.1 : ℤ)).toNat) = 0 := by
      unfold singletonGrid
      rw [meshIndexOf_toNat]
      dsimp only
      rw [if_neg]
      intro he
      obtain ⟨e1, e2, e3⟩ := indexOf_inj hc.1 hc.2.2 hc.2.1 hx hy hz he
      exact hne (Prod.ext e1 (Prod.ext e3 e2))
    rw [if_pos (by rw [hval]; rfl)]

theorem pairGrid_blocked_p (px py pz qx qy qz : ℕ) (m : ℕ) (hm0 : m ≠ 0)
    (hp1 : px < 16) (hp2 : py < 128) (hp3 : pz < 16) (nx ny nz : ℤ)
    (he1 : nx = (px : ℤ)) (he2 : ny = (py : ℤ)) (he3 : nz = (pz : ℤ)) :
    specAirAt (pairGrid (px, py, pz) (qx, qy, qz) m) 16 128 16 nx ny nz = false := by
  subst he1
  subst he2
  subst he3
  unfold specAirAt
  have hout : ¬((px : ℤ) < 0 ∨ (16 : ℤ) ≤ (px : ℤ) ∨ (py : ℤ) < 0 ∨ (128 : ℤ) ≤ (py : ℤ) ∨
      (pz : ℤ) < 0 ∨ (16 : ℤ) ≤ (pz : ℤ)) := by omega
  have hread : pairGrid (px, py, pz) (qx, qy, qz) m
      ((meshIndexOf 128 16 (px : ℤ) (py : ℤ) (pz : ℤ)).toNat) = m := by
    unfold pairGrid
    rw [meshIndexOf_toNat]
    dsimp only
    rw [if_pos rfl]
  simp [hread, hm0, hout, BLOCK_AIR]
  exact ⟨hp1, hp2, hp3⟩

theorem pair_cell_value_p (px py pz qx qy qz m : ℕ) :
    pairGrid (px, py, pz) (qx, qy, qz) m
      ((meshIndexOf 128 16 (px : ℤ) (py : ℤ) (pz : ℤ)).toNat) = m := by
  unfold pairGrid
  rw [meshIndexOf_toNat]
  dsimp only
  rw [if_pos rfl]

theorem pair_cell_value_q (px py pz qx qy qz m : ℕ)
    (hp1 : px < 16) (hp2 : py < 128) (hp3 : pz < 16)
    (hq1 : qx < 16) (hq2 : qy < 128) (hq3 : qz < 16)
    (hne : ¬(qx = px ∧ qy = py ∧ qz = pz)) :
    pairGrid (px, py, pz) (qx, qy, qz) m
      ((meshIndexOf 128 16 (qx : ℤ) (qy : ℤ) (qz : ℤ)).toNat) = m := by
  unfold pairGrid
  rw [meshIndexOf_toNat]
  dsimp only
  have hne1 : ¬(indexOf qx qy qz = indexOf px py pz) := by
    intro he
    obtain ⟨e1, e2, e3⟩ := indexOf_inj hq1 hq2 hq3 hp1 hp2 hp3 he
    exact hne ⟨e1, e2, e3⟩
  rw [if_neg hne1, if_pos rfl]

theorem pair_cell_value_other (px py pz qx qy qz m : ℕ)
    (hp1 : px < 16) (hp2 : py < 128) (hp3 : pz < 16)
    (hq1 : qx < 16) (hq2 : qy < 128) (hq3 : qz < 16)
    (c : ℕ × ℕ × ℕ) (hc1 : c.1 < 16) (hc2 : c.2.1 < 16) (hc3 : c.2.2 < 128)
    (hnep : c ≠ (px, pz, py)) (hneq : c ≠ (qx, qz, qy)) :
    pairGrid (px, py, pz) (qx, qy, qz) m
      ((meshIndexOf 128 16 (c.1 : ℤ) (c.2.2 : ℤ) (c.2.1 : ℤ)).toNat) = 0 := by
  unfold pairGrid
  rw [meshIndexOf_toNat]
  dsimp only
  have hne1 : ¬(indexOf c.1 c.2.2 c.2.1 = indexOf px py pz) := by
    intro he
    obtain ⟨e1, e2, e3⟩ := indexOf_inj hc1 hc3 hc2 hp1 hp2 hp3 he
    exact hnep (Prod.ext e1 (Prod.ext e3 e2))
  have hne2 : ¬(indexOf c.1 c.2.2 c.2.1 = indexOf qx qy qz) := by
    intro he
    obtain ⟨e1, e2, e3⟩ := indexOf_inj hc1 hc3 hc2 hq1 hq2 hq3 he
    exact hneq (Prod.ext e1 (Prod.ext e3 e2))
  rw [if_neg hne1, if_neg hne2]


theorem pairX_p_filter (px py pz m : ℕ)
    (hx : px < 16) (hy : py < 128) (hz : pz < 16) (hx1 : px + 1 < 16) (hm0 : m ≠ 0) :
    (FACES.filter (specVisible (pairGrid (px, py, pz) ((px + 1), py, pz) m) 16 128 16
      (px, pz, py))).length = 5 := by
  have h0 : specVisible (pairGrid (px, py, pz) ((px + 1), py, pz) m) 16 128 16 (px, pz, py)
      ⟨(0, -1, 0), (0, 0, 1), (1, 0, 1), (1, 0, 0), (0, 0, 0)⟩ = true := by
    unfold specVisible
    dsimp only
    apply pairGrid_air px py pz (px + 1) py pz m hx hy hz hx1 hy hz <;> (dsimp only; omega)
  have h1 : specVisible (pairGrid (px, py, pz) ((px + 1), py, pz) m) 16 128 16 (px, pz, py)
      ⟨(0, 1, 0), (0, 1, 0), (1, 1, 0), (1, 1, 1), (0, 1, 1)⟩ = true := by
    unfold specVisible
    dsimp only
    apply pairGrid_air px py pz (px + 1) py pz m hx hy hz hx1 hy hz <;> (dsimp only; omega)
  have h2 : specVisible (pairGrid (px, py, pz) ((px + 1), py, pz) m) 16 128 16 (px, pz, py)
      ⟨(-1, 0, 0), (0, 0, 1), (0, 1, 1), (0, 1, 0), (0, 0, 0)⟩ = true := by
    unfold specVisible
    dsimp only
    apply pairGrid_air px py pz (px + 1) py pz m hx hy hz hx1 hy hz <;> (dsimp only; omega)
  have h3 : specVisible (pairGrid (px, py, pz) ((px + 1), py, pz) m) 16 128 16 (px, pz, py)
      ⟨(1, 0, 0), (1, 0, 0), (1, 1, 0), (1, 1, 1), (1, 0, 1)⟩ = false := by
    unfold specVisible
    dsimp only
    apply pairGrid_blocked px py pz (px + 1) py pz m hm0 hx1 hy hz <;> (dsimp only; omega)
  have h4 : specVisible (pairGrid (px, py, pz) ((px + 1), py, pz) m) 16 128 16 (px, pz, py)
      ⟨(0, 0, -1), (1, 0, 0), (0, 0, 0), (0, 1, 0), (1, 1, 0)⟩ = true := by
    unfold specVisible
    dsimp only
    apply pairGrid_air px py pz (px + 1) py pz m hx hy hz hx1 hy hz <;> (dsimp only; omega)
  have h5 : specVisible (pairGrid (px, py, pz) ((px + 1), py, pz) m) 16 128 16 (px, pz, py)
      ⟨(0, 0, 1), (0, 0, 1), (1, 0, 1), (1, 1, 1), (0, 1, 1)⟩ = true := by
    unfold specVisible
    dsimp only
    apply pairGrid_air px py pz (px + 1) py pz m hx hy hz hx1 hy hz <;> (dsimp only; omega)
  unfold FACES
  simp only [List.filter_cons, List.filter_nil, h0, h1, h2, h3, h4, h5]
  rfl

theorem pairX_q_filter (px py pz m : ℕ)
    (hx : px < 16) (hy : py < 128) (hz : pz < 16) (hx1 : px + 1 < 16) (hm0 : m ≠ 0) :
    (FACES.filter (specVisible (pairGrid (px, py, pz) ((px + 1), py, pz) m) 16 128 16
      (px + 1, pz, py))).length = 5 := by
  have h0 : specVisible (pairGrid (px, py, pz) ((px + 1), py, pz) m) 16 128 16 (px + 1, pz, py)
      ⟨(0, -1, 0), (0, 0, 1), (1, 0, 1), (1, 0, 0), (0, 0, 0)⟩ = true := by
    unfold specVisible
    dsimp only
    apply pairGrid_air px py pz (px + 1) py pz m hx hy hz hx1 hy hz <;> (dsimp only; omega)
  have h1 : specVisible (pairGrid (px, py, pz) ((px + 1), py, pz) m) 16 128 16 (px + 1, pz, py)
      ⟨(0, 1, 0), (0, 1, 0), (1, 1, 0), (1, 1, 1), (0, 1, 1)⟩ = true := by
    unfold specVisible
    dsimp only
    apply pairGrid_air px py pz (px + 1) py pz m hx hy hz hx1 hy hz <;> (dsimp only; omega)
  have h2 : specVisible (pairGrid (px, py, pz) ((px + 1), py, pz) m) 16 128 16 (px + 1, pz, py)
      ⟨(-1, 0, 0), (0, 0, 1), (0, 1, 1), (0, 1, 0), (0, 0, 0)⟩ = false := by
    unfold specVisible
    dsimp only
    apply pairGrid_blocked_p px py pz (px + 1) py pz m hm0 hx hy hz <;> (dsimp only; omega)
  have h3 : specVisible (pairGrid (px, py, pz) ((px + 1), py, pz) m) 16 128 16 (px + 1, pz, py)
      ⟨(1, 0, 0), (1, 0, 0), (1, 1, 0), (1, 1, 1), (1, 0, 1)⟩ = true := by
    unfold specVisible
    dsimp only
    apply pairGrid_air px py pz (px + 1) py pz m hx hy hz hx1 hy hz <;> (dsimp only; omega)
  have h4 : specVisible (pairGrid (px, py, pz) ((px + 1), py, pz) m) 16 128 16 (px + 1, pz, py)
      ⟨(0, 0, -1), (1, 0, 0), (0, 0, 0), (0, 1, 0), (1, 1, 0)⟩ = true := by
    unfold specVisible
    dsimp only
    apply pairGrid_air px py pz (px + 1) py pz m hx hy hz hx1 hy hz <;> (dsimp only; omega)
  have h5 : specVisible (pairGrid (px, py, pz) ((px + 1), py, pz) m) 16 128 16 (px + 1, pz, py)
      ⟨(0, 0, 1), (0, 0, 1), (1, 0, 1), (1, 1, 1), (0, 1, 1)⟩ = true := by
    unfold specVisible
    dsimp only
    apply pairGrid_air px py pz (px + 1) py pz m hx hy hz hx1 hy hz <;> (dsimp only; omega)
  unfold FACES
  simp only [List.filter_cons, List.filter_nil, h0, h1, h2, h3, h4, h5]
  rfl

theorem pairY_p_filter (px py pz m : ℕ)
    (hx : px < 16) (hy : py < 128) (hz : pz < 16) (hy1 : py + 1 < 128) (hm0 : m ≠ 0) :
    (FACES.filter (specVisible (pairGrid (px, py, pz) (px, (py + 1), pz) m) 16 128 16
      (px, pz, py))).length = 5 := by
  have h0 : specVisible (pairGrid (px, py, pz) (px, (py + 1), pz) m) 16 128 16 (px, pz, py)
      ⟨(0, -1, 0), (0, 0, 1), (1, 0, 1), (1, 0, 0), (0, 0, 0)⟩ = true := by
    unfold specVisible
    dsimp only
    apply pairGrid_air px py pz px (py + 1) pz m hx hy hz hx hy1 hz <;> (dsimp only; omega)
  have h1 : specVisible (pairGrid (px, py, pz) (px, (py + 1), pz) m) 16 128 16 (px, pz, py)
      ⟨(0, 1, 0), (0, 1, 0), (1, 1, 0), (1, 1, 1), (0, 1, 1)⟩ = false := by
    unfold specVisible
    dsimp only
    apply pairGrid_blocked px py pz px (py + 1) pz m hm0 hx hy1 hz <;> (dsimp only; omega)
  have h2 : specVisible (pairGrid (px, py, pz) (px, (py + 1), pz) m) 16 128 16 (px, pz, py)
      ⟨(-1, 0, 0), (0, 0, 1), (0, 1, 1), (0, 1, 0), (0, 0, 0)⟩ = true := by
    unfold specVisible
    dsimp only
    apply pairGrid_air px py pz px (py + 1) pz m hx hy hz hx hy1 hz <;> (dsimp only; omega)
  have h3 : specVisible (pairGrid (px, py, pz) (px, (py + 1), pz) m) 16 128 16 (px, pz, py)
      ⟨(1, 0, 0), (1, 0, 0), (1, 1, 0), (1, 1, 1), (1, 0, 1)⟩ = true := by
    unfold specVisible
    dsimp only
    apply pairGrid_air px py pz px (py + 1) pz m hx hy hz hx hy1 hz <;> (dsimp only; omega)
  have h4 : specVisible (pairGrid (px, py, pz) (px, (py + 1), pz) m) 16 128 16 (px, pz, py)
      ⟨(0, 0, -1), (1, 0, 0), (0, 0, 0), (0, 1, 0), (1, 1, 0)⟩ = true := by
    unfold specVisible
    dsimp only
    apply pairGrid_air px py pz px (py + 1) pz m hx hy hz hx hy1 hz <;> (dsimp only; omega)
  have h5 : specVisible (pairGrid (px, py, pz) (px, (py + 1), pz) m) 16 128 16 (px, pz, py)
      ⟨(0, 0, 1), (0, 0, 1), (1, 0, 1), (1, 1, 1), (0, 1, 1)⟩ = true := by
    unfold specVisible
    dsimp only
    apply pairGrid_air px py pz px (py + 1) pz m hx hy hz hx hy1 hz <;> (dsimp only; omega)
  unfold FACES
  simp only [List.filter_cons, List.filter_nil, h0, h1, h2, h3, h4, h5]
  rfl

theorem pairY_q_filter (px py pz m : ℕ)
    (hx : px < 16) (hy : py < 128) (hz : pz < 16) (hy1 : py + 1 < 128) (hm0 : m ≠ 0) :
    (FACES.filter (specVisible (pairGrid (px, py, pz) (px, (py + 1), pz) m) 16 128 16
      (px, pz, py + 1))).length = 5 := by
  have h0 : specVisible (pairGrid (px, py, pz) (px, (py + 1), pz) m) 16 128 16 (px, pz, py + 1)
      ⟨(0, -1, 0), (0, 0, 1), (1, 0, 1), (1, 0, 0), (0, 0, 0)⟩ = false := by
    unfold specVisible
    dsimp only
    apply pairGrid_blocked_p px py pz px (py + 1) pz m hm0 hx hy hz <;> (dsimp only; omega)
  have h1 : specVisible (pairGrid (px, py, pz) (px, (py + 1), pz) m) 16 128 16 (px, pz, py + 1)
      ⟨(0, 1, 0), (0, 1, 0), (1, 1, 0), (1, 1, 1), (0, 1, 1)⟩ = true := by
    unfold specVisible
    dsimp only
    apply pairGrid_air px py pz px (py + 1) pz m hx hy hz hx hy1 hz <;> (dsimp only; omega)
  have h2 : specVisible (pairGrid (px, py, pz) (px, (py + 1), pz) m) 16 128 16 (px, pz, py + 1)
      ⟨(-1, 0, 0), (0, 0, 1), (0, 1, 1), (0, 1, 0), (0, 0, 0)⟩ = true := by
    unfold specVisible
    dsimp only
    apply pairGrid_air px py pz px (py + 1) pz m hx hy hz hx hy1 hz <;> (dsimp only; omega)
  have h3 : specVisible (pairGrid (px, py, pz) (px, (py + 1), pz) m) 16 128 16 (px, pz, py + 1)
      ⟨(1, 0, 0), (1, 0, 0), (1, 1, 0), (1, 1, 1), (1, 0, 1)⟩ = true := by
    unfold specVisible
    dsimp only
    apply pairGrid_air px py pz px (py + 1) pz m hx hy hz hx hy1 hz <;> (dsimp only; omega)
  have h4 : specVisible (pairGrid (px, py, pz) (px, (py + 1), pz) m) 16 128 16 (px, pz, py + 1)
      ⟨(0, 0, -1), (1, 0, 0), (0, 0, 0), (0, 1, 0), (1, 1, 0)⟩ = true := by
    unfold specVisible
    dsimp only
    apply pairGrid_air px py pz px (py + 1) pz m hx hy hz hx hy1 hz <;> (dsimp only; omega)
  have h5 : specVisible (pairGrid (px, py, pz) (px, (py + 1), pz) m) 16 128 16 (px, pz, py + 1)
      ⟨(0, 0, 1), (0, 0, 1), (1, 0, 1), (1, 1, 1), (0, 1, 1)⟩ = true := by
    unfold specVisible
    dsimp only
    apply pairGrid_air px py pz px (py + 1) pz m hx hy hz hx hy1 hz <;> (dsimp only; omega)
  unfold FACES
  simp only [List.filter_cons, List.filter_nil, h0, h1, h2, h3, h4, h5]
  rfl

theorem pairZ_p_filter (px py pz m : ℕ)
    (hx : px < 16) (hy : py < 128) (hz : pz < 16) (hz1 : pz + 1 < 16) (hm0 : m ≠ 0) :
    (FACES.filter (specVisible (pairGrid (px, py, pz) (px, py, (pz + 1)) m) 16 128 16
      (px, pz, py))).length = 5 := by
  have h0 : specVisible (pairGrid (px, py, pz) (px, py, (pz + 1)) m) 16 128 16 (px, pz, py)
      ⟨(0, -1, 0), (0, 0, 1), (1, 0, 1), (1, 0, 0), (0, 0, 0)⟩ = true := by
    unfold specVisible
    dsimp only
    apply pairGrid_air px py pz px py (pz + 1) m hx hy hz hx hy hz1 <;> (dsimp only; omega)
  have h1 : specVisible (pairGrid (px, py, pz) (px, py, (pz + 1)) m) 16 128 16 (px, pz, py)
      ⟨(0, 1, 0), (0, 1, 0), (1, 1, 0), (1, 1, 1), (0, 1, 1)⟩ = true := by
    unfold specVisible
    dsimp only
    apply pairGrid_air px py pz px py (pz + 1) m hx hy hz hx hy hz1 <;> (dsimp only; omega)
  have h2 : specVisible (pairGrid (px, py, pz) (px, py, (pz + 1)) m) 16 128 16 (px, pz, py)
      ⟨(-1, 0, 0), (0, 0, 1), (0, 1, 1), (0, 1, 0), (0, 0, 0)⟩ = true := by
    unfold specVisible
    dsimp only
    apply pairGrid_air px py pz px py (pz + 1) m hx hy hz hx hy hz1 <;> (dsimp only; omega)
  have h3 : specVisible (pairGrid (px, py, pz) (px, py, (pz + 1)) m) 16 128 16 (px, pz, py)
      ⟨(1, 0, 0), (1, 0, 0), (1, 1, 0), (1, 1, 1), (1, 0, 1)⟩ = true := by
    unfold specVisible
    dsimp only
    apply pairGrid_air px py pz px py (pz + 1) m hx hy hz hx hy hz1 <;> (dsimp only; omega)
  have h4 : specVisible (pairGrid (px, py, pz) (px, py, (pz + 1)) m) 16 128 16 (px, pz, py)
      ⟨(0, 0, -1), (1, 0, 0), (0, 0, 0), (0, 1, 0), (1, 1, 0)⟩ = true := by
    unfold specVisible
    dsimp only
    apply pairGrid_air px py pz px py (pz + 1) m hx hy hz hx hy hz1 <;> (dsimp only; omega)
  have h5 : specVisible (pairGrid (px, py, pz) (px, py, (pz + 1)) m) 16 128 16 (px, pz, py)
      ⟨(0, 0, 1), (0, 0, 1), (1, 0, 1), (1, 1, 1), (0, 1, 1)⟩ = false := by
    unfold specVisible
    dsimp only
    apply pairGrid_blocked px py pz px py (pz + 1) m hm0 hx hy hz1 <;> (dsimp only; omega)
  unfold FACES
  simp only [List.filter_cons, List.filter_nil, h0, h1, h2, h3, h4, h5]
  rfl

theorem pairZ_q_filter (px py pz m : ℕ)
    (hx : px < 16) (hy : py < 128) (hz : pz < 16) (hz1 : pz + 1 < 16) (hm0 : m ≠ 0) :
    (FACES.filter (specVisible (pairGrid (px, py, pz) (px, py, (pz + 1)) m) 16 128 16
      (px, pz + 1, py))).length = 5 := by
  have h0 : specVisible (pairGrid (px, py, pz) (px, py, (pz + 1)) m) 16 128 16 (px, pz + 1, py)
      ⟨(0, -1, 0), (0, 0, 1), (1, 0, 1), (1, 0, 0), (0, 0, 0)⟩ = true := by
    unfold specVisible
    dsimp only
    apply pairGrid_air px py pz px py (pz + 1) m hx hy hz hx hy hz1 <;> (dsimp only; omega)
  have h1 : specVisible (pairGrid (px, py, pz) (px, py, (pz + 1)) m) 16 128 16 (px, pz + 1, py)
      ⟨(0, 1, 0), (0, 1, 0), (1, 1, 0), (1, 1, 1), (0, 1, 1)⟩ = true := by
    unfold specVisible
    dsimp only
    apply pairGrid_air px py pz px py (pz + 1) m hx hy hz hx hy hz1 <;> (dsimp only; omega)
  have h2 : specVisible (pairGrid (px, py, pz) (px, py, (pz + 1)) m) 16 128 16 (px, pz + 1, py)
      ⟨(-1, 0, 0), (0, 0, 1), (0, 1, 1), (0, 1, 0), (0, 0, 0)⟩ = true := by
    unfold specVisible
    dsimp only
    apply pairGrid_air px py pz px py (pz + 1) m hx hy hz hx hy hz1 <;> (dsimp only; omega)
  have h3 : specVisible (pairGrid (px, py, pz) (px, py, (pz + 1)) m) 16 128 16 (px, pz + 1, py)
      ⟨(1, 0, 0), (1, 0, 0), (1, 1, 0), (1, 1, 1), (1, 0, 1)⟩ = true := by
    unfold specVisible
    dsimp only
    apply pairGrid_air px py pz px py (pz + 1) m hx hy hz hx hy hz1 <;> (dsimp only; omega)
  have h4 : specVisible (pairGrid (px, py, pz) (px, py, (pz + 1)) m) 16 128 16 (px, pz + 1, py)
      ⟨(0, 0, -1), (1, 0, 0), (0, 0, 0), (0, 1, 0), (1, 1, 0)⟩ = false := by
    unfold specVisible
    dsimp only
    apply pairGrid_blocked_p px py pz px py (pz + 1) m hm0 hx hy hz <;> (dsimp only; omega)
  have h5 : specVisible (pairGrid (px, py, pz) (px, py, (pz + 1)) m) 16 128 16 (px, pz + 1, py)
      ⟨(0, 0, 1), (0, 0, 1), (1, 0, 1), (1, 1, 1), (0, 1, 1)⟩ = true := by
    unfold specVisible
    dsimp only
    apply pairGrid_air px py pz px py (pz + 1) m hx hy hz hx hy hz1 <;> (dsimp only; omega)
  unfold FACES
  simp only [List.filter_cons, List.filter_nil, h0, h1, h2, h3, h4, h5]
  rfl
theorem pairX_faceList_length (px py pz m : ℕ)
    (hx : px < 16) (hy : py < 128) (hz : pz < 16) (hx1 : px + 1 < 16) (hm0 : m ≠ 0) :
    (specFaceList (pairGrid (px, py, pz) ((px + 1), py, pz) m) 16 128 16).length = 10 := by
  rw [specFaceList_length]
  rw [sum_map_pair (specCells 16 128 16) (specCells_nodup 16 128 16)
    (px, pz, py) (px + 1, pz, py)
    (specCells_mem.mpr ⟨hx, hz, hy⟩) (specCells_mem.mpr ⟨hx1, hz, hy⟩)
    (by simp only [ne_eq, Prod.mk.injEq]; omega) _ ?_]
  · dsimp only
    have hvp : pairGrid (px, py, pz) ((px + 1), py, pz) m
        ((meshIndexOf 128 16 (px : ℤ) (py : ℤ) (pz : ℤ)).toNat) = m :=
      pair_cell_value_p px py pz (px + 1) py pz m
    have hvq : pairGrid (px, py, pz) ((px + 1), py, pz) m
        ((meshIndexOf 128 16 (((px + 1) : ℕ) : ℤ) ((py : ℕ) : ℤ) ((pz : ℕ) : ℤ)).toNat) = m :=
      pair_cell_value_q px py pz (px + 1) py pz m hx hy hz hx1 hy hz
        (by omega)
    rw [if_neg (by rw [hvp]; unfold BLOCK_AIR; exact hm0),
      if_neg (by rw [hvq]; unfold BLOCK_AIR; exact hm0)]
    rw [pairX_p_filter px py pz m hx hy hz hx1 hm0,
      pairX_q_filter px py pz m hx hy hz hx1 hm0]
  · intro c hc hnep hneq
    rw [specCells_mem] at hc
    have hval : pairGrid (px, py, pz) ((px + 1), py, pz) m
        ((meshIndexOf 128 16 (c.1 : ℤ) (c.2.2 : ℤ) (c.2.1 : ℤ)).toNat) = 0 :=
      pair_cell_value_other px py pz (px + 1) py pz m hx hy hz
        hx1 hy hz c hc.1 hc.2.1 hc.2.2 hnep hneq
    rw [if_pos (by rw [hval]; rfl)]

theorem pairY_faceList_length (px py pz m : ℕ)
    (hx : px < 16) (hy : py < 128) (hz : pz < 16) (hy1 : py + 1 < 128) (hm0 : m ≠ 0) :
    (specFaceList (pairGrid (px, py, pz) (px, (py + 1), pz) m) 16 128 16).length = 10 := by
  rw [specFaceList_length]
  rw [sum_map_pair (specCells 16 128 16) (specCells_nodup 16 128 16)
    (px, pz, py) (px, pz, py + 1)
    (specCells_mem.mpr ⟨hx, hz, hy⟩) (specCells_mem.mpr ⟨hx, hz, hy1⟩)
    (by simp only [ne_eq, Prod.mk.injEq]; omega) _ ?_]
  · dsimp only
    have hvp : pairGrid (px, py, pz) (px, (py + 1), pz) m
        ((meshIndexOf 128 16 (px : ℤ) (py : ℤ) (pz : ℤ)).toNat) = m :=
      pair_cell_value_p px py pz px (py + 1) pz m
    have hvq : pairGrid (px, py, pz) (px, (py + 1), pz) m
        ((meshIndexOf 128 16 ((px : ℕ) : ℤ) (((py + 1) : ℕ) : ℤ) ((pz : ℕ) : ℤ)).toNat) = m :=
      pair_cell_value_q px py pz px (py + 1) pz m hx hy hz hx hy1 hz
        (by omega)
    rw [if_neg (by rw [hvp]; unfold BLOCK_AIR; exact hm0),
      if_neg (by rw [hvq]; unfold BLOCK_AIR; exact hm0)]
    rw [pairY_p_filter px py pz m hx hy hz hy1 hm0,
      pairY_q_filter px py pz m hx hy hz hy1 hm0]
  · intro c hc hnep hneq
    rw [specCells_mem] at hc
    have hval : pairGrid (px, py, pz) (px, (py + 1), pz) m
        ((meshIndexOf 128 16 (c.1 : ℤ) (c.2.2 : ℤ) (c.2.1 : ℤ)).toNat) = 0 :=
      pair_cell_value_other px py pz px (py + 1) pz m hx hy hz
        hx hy1 hz c hc.1 hc.2.1 hc.2.2 hnep hneq
    rw [if_pos (by rw [hval]; rfl)]

theorem pairZ_faceList_length (px py pz m : ℕ)
    (hx : px < 16) (hy : py < 128) (hz : pz < 16) (hz1 : pz + 1 < 16) (hm0 : m ≠ 0) :
    (specFaceList (pairGrid (px, py, pz) (px, py, (pz + 1)) m) 16 128 16).length = 10 := by
  rw [specFaceList_length]
  rw [sum_map_pair (specCells 16 128 16) (specCells_nodup 16 128 16)
    (px, pz, py) (px, pz + 1, py)
    (specCells_mem.mpr ⟨hx, hz, hy⟩) (specCells_mem.mpr ⟨hx, hz1, hy⟩)
    (by simp only [ne_eq, Prod.mk.injEq]; omega) _ ?_]
  · dsimp only
    have hvp : pairGrid (px, py, pz) (px, py, (pz + 1)) m
        ((meshIndexOf 128 16 (px : ℤ) (py : ℤ) (pz : ℤ)).toNat) = m :=
      pair_cell_value_p px py pz px py (pz + 1) m
    have hvq : pairGrid (px, py, pz) (px, py, (pz + 1)) m
        ((meshIndexOf 128 16 ((px : ℕ) : ℤ) ((py : ℕ) : ℤ) (((pz + 1) : ℕ) : ℤ)).toNat) = m :=
      pair_cell_value_q px py pz px py (pz + 1) m hx hy hz hx hy hz1
        (by omega)
    rw [if_neg (by rw [hvp]; unfold BLOCK_AIR; exact hm0),
      if_neg (by rw [hvq]; unfold BLOCK_AIR; exact hm0)]
    rw [pairZ_p_filter px py pz m hx hy hz hz1 hm0,
      pairZ_q_filter px py pz m hx hy hz hz1 hm0]
  · intro c hc hnep hneq
    rw [specCells_mem] at hc
    have hval : pairGrid (px, py, pz) (px, py, (pz + 1)) m
        ((meshIndexOf 128 16 (c.1 : ℤ) (c.2.2 : ℤ) (c.2.1 : ℤ)).toNat) = 0 :=
      pair_cell_value_other px py pz px py (pz + 1) m hx hy hz
        hx hy hz1 c hc.1 hc.2.1 hc.2.2 hnep hneq
    rw [if_pos (by rw [hval]; rfl)]
/-- Claim C7: a chunk grid holding exactly one solid materialled cell meshes
to exactly 6 faces — 12 triangles, 36 vertices, 36×3 position floats; a grid
holding exactly two adjacent solid cells of the same material meshes to
exactly 10 faces (60 vertices), and the two internal faces between the cells
are never emitted. -/
theorem c7_face_counts :
    (∀ px py pz m : ℕ, px < 16 → py < 128 → pz < 16 → 1 ≤ m → m ≤ 7 →
      (greedyMeshVoxel (singletonGrid (px, py, pz) m) 16 128 16).positions.length = 36 * 3 ∧
      (greedyMeshVoxel (singletonGrid (px, py, pz) m) 16 128 16).normals.length = 36 * 3 ∧
      (greedyMeshVoxel (singletonGrid (px, py, pz) m) 16 128 16).colors.length = 36 * 3 ∧
      (greedyMeshVoxel (singletonGrid (px, py, pz) m) 16 128 16).uvs.length = 36 * 2) ∧
    (∀ px py pz m : ℕ, ∀ e : ℕ × ℕ × ℕ,
      (e = (1, 0, 0) ∨ e = (0, 1, 0) ∨ e = (0, 0, 1)) →
      px < 16 → py < 128 → pz < 16 →
      px + e.1 < 16 → py + e.2.1 < 128 → pz + e.2.2 < 16 → 1 ≤ m → m ≤ 7 →
      ((greedyMeshVoxel (pairGrid (px, py, pz) (px + e.1, py + e.2.1, pz + e.2.2) m)
          16 128 16).positions.length = 60 * 3 ∧
       (∀ f ∈ FACES, f.dir = ((e.1 : ℤ), (e.2.1 : ℤ), (e.2.2 : ℤ)) →
         specVisible (pairGrid (px, py, pz) (px + e.1, py + e.2.1, pz + e.2.2) m)
           16 128 16 (px, pz, py) f = false) ∧
       (∀ f ∈ FACES, f.dir = (-(e.1 : ℤ), -(e.2.1 : ℤ), -(e.2.2 : ℤ)) →
         specVisible (pairGrid (px, py, pz) (px + e.1, py + e.2.1, pz + e.2.2) m)
           16 128 16 (px + e.1, pz + e.2.2, py + e.2.1) f = false))) := by
  constructor
  · intro px py pz m hx hy hz hm1 hm7
    rw [mesh_eq_spec (singletonGrid (px, py, pz) m) 16 128 16
      (singletonGrid_valid (px, py, pz) m hm7)]
    have hfl := singleton_faceList_length px py pz m hx hy hz (by omega)
    obtain ⟨l1, l2, l3, l4⟩ := specMesh_lengths (singletonGrid (px, py, pz) m) 16 128 16
    exact ⟨by rw [l1, hfl], by rw [l2, hfl], by rw [l3, hfl], by rw [l4, hfl]⟩
  · intro px py pz m e he hx hy hz hex hey hez hm1 hm7
    have hm0 : m ≠ 0 := by omega
    rcases he with rfl | rfl | rfl
    · dsimp only at hex hey hez ⊢
      simp only [Nat.add_zero] at hex hey hez ⊢
      refine ⟨?_, ?_, ?_⟩
      · rw [mesh_eq_spec _ 16 128 16 (pairGrid_valid _ _ m hm7)]
        rw [(specMesh_lengths _ 16 128 16).1, pairX_faceList_length px py pz m hx hy hz hex hm0]
      · intro f hf hdir
        unfold FACES at hf
        fin_cases hf
        · exact absurd hdir (by decide)
        · exact absurd hdir (by decide)
        · exact absurd hdir (by decide)
        · unfold specVisible
          dsimp only
          apply pairGrid_blocked px py pz (px + 1) py pz m hm0 hex hey hez <;> (dsimp only; omega)
        · exact absurd hdir (by decide)
        · exact absurd hdir (by decide)
      · intro f hf hdir
        unfold FACES at hf
        fin_cases hf
        · exact absurd hdir (by decide)
        · exact absurd hdir (by decide)
        · unfold specVisible
          dsimp only
          apply pairGrid_blocked_p px py pz (px + 1) py pz m hm0 hx hy hz <;> (dsimp only; omega)
        · exact absurd hdir (by decide)
        · exact absurd hdir (by decide)
        · exact absurd hdir (by decide)
    · dsimp only at hex hey hez ⊢
      simp only [Nat.add_zero] at hex hey hez ⊢
      refine ⟨?_, ?_, ?_⟩
      · rw [mesh_eq_spec _ 16 128 16 (pairGrid_valid _ _ m hm7)]
        rw [(specMesh_lengths _ 16 128 16).1, pairY_faceList_length px py pz m hx hy hz hey hm0]
      · intro f hf hdir
        unfold FACES at hf
        fin_cases hf
        · exact absurd hdir (by decide)
        · unfold specVisible
          dsimp only
          apply pairGrid_blocked px py pz px (py + 1) pz m hm0 hex hey hez <;> (dsimp only; omega)
        · exact absurd hdir (by decide)
        · exact absurd hdir (by decide)
        · exact absurd hdir (by decide)
        · exact absurd hdir (by decide)
      · intro f hf hdir
        unfold FACES at hf
        fin_cases hf
        · unfold specVisible
          dsimp only
          apply pairGrid_blocked_p px py pz px (py + 1) pz m hm0 hx hy hz <;> (dsimp only; omega)
        · exact absurd hdir (by decide)
        · exact absurd hdir (by decide)
        · exact absurd hdir (by decide)
        · exact absurd hdir (by decide)
        · exact absurd hdir (by decide)
    · dsimp only at hex hey hez ⊢
      simp only [Nat.add_zero] at hex hey hez ⊢
      refine ⟨?_, ?_, ?_⟩
      · rw [mesh_eq_spec _ 16 128 16 (pairGrid_valid _ _ m hm7)]
        rw [(specMesh_lengths _ 16 128 16).1, pairZ_faceList_length px py pz m hx hy hz hez hm0]
      · intro f hf hdir
        unfold FACES at hf
        fin_cases hf
        · exact absurd hdir (by decide)
        · exact absurd hdir (by decide)
        · exact absurd hdir (by decide)
        · exact absurd hdir (by decide)
        · exact absurd hdir (by decide)
        · unfold specVisible
          dsimp only
          apply pairGrid_blocked px py pz px py (pz + 1) m hm0 hex hey hez <;> (dsimp only; omega)
      · intro f hf hdir
        unfold FACES at hf
        fin_cases hf
        · exact absurd hdir (by decide)
        · exact absurd hdir (by decide)
        · exact absurd hdir (by decide)
        · exact absurd hdir (by decide)
        · unfold specVisible
          dsimp only
          apply pairGrid_blocked_p px py pz px py (pz + 1) m hm0 hx hy hz <;> (dsimp only; omega)
        · exact absurd hdir (by decide)

/-- Witness for C7: the single cell (1,1,1) of Stone, and the Stone pair
(0,0,0)-(1,0,0). -/
theorem c7_face_counts_witness :
    ((greedyMeshVoxel (singletonGrid (1, 1, 1) 3) 16 128 16).positions.length = 36 * 3 ∧
     (greedyMeshVoxel (singletonGrid (1, 1, 1) 3) 16 128 16).normals.length = 36 * 3 ∧
     (greedyMeshVoxel (singletonGrid (1, 1, 1) 3) 16 128 16).colors.length = 36 * 3 ∧
     (greedyMeshVoxel (singletonGrid (1, 1, 1) 3) 16 128 16).uvs.length = 36 * 2) ∧
    ((greedyMeshVoxel (pairGrid (0, 0, 0) (0 + 1, 0 + 0, 0 + 0) 3)
        16 128 16).positions.length = 60 * 3 ∧
     (∀ f ∈ FACES, f.dir = (((1 : ℕ) : ℤ), ((0 : ℕ) : ℤ), ((0 : ℕ) : ℤ)) →
       specVisible (pairGrid (0, 0, 0) (0 + 1, 0 + 0, 0 + 0) 3)
         16 128 16 (0, 0, 0) f = false) ∧
     (∀ f ∈ FACES, f.dir = (-((1 : ℕ) : ℤ), -((0 : ℕ) : ℤ), -((0 : ℕ) : ℤ)) →
       specVisible (pairGrid (0, 0, 0) (0 + 1, 0 + 0, 0 + 0) 3)
         16 128 16 (0 + 1, 0 + 0, 0 + 0) f = false)) :=
  ⟨c7_face_counts.1 1 1 1 3 (by norm_num) (by norm_num) (by norm_num) (by norm_num)
      (by norm_num),
   c7_face_counts.2 0 0 0 3 (1, 0, 0) (Or.inl rfl) (by norm_num) (by norm_num) (by norm_num)
      (by norm_num) (by norm_num) (by norm_num) (by norm_num) (by norm_num)⟩

theorem MATERIALS_none {b : ℕ} (h8 : 8 ≤ b) : MATERIALS b = none := by
  unfold MATERIALS BLOCK_DIRT BLOCK_GRASS BLOCK_STONE BLOCK_SAND BLOCK_LOG BLOCK_LEAVES
    BLOCK_CACTUS
  rw [if_neg (by omega), if_neg (by omega), if_neg (by omega), if_neg (by omega),
    if_neg (by omega), if_neg (by omega), if_neg (by omega)]

/-- Claim C10: a non-Air cell whose byte value has no material entry (any
value 8 or above) emits no faces of its own, yet still suppresses the faces
of adjacent cells that point toward it, so invalid bytes silently produce
holes in the mesh; concretely, the 2×1×1 buffer [Stone, 9] meshes to only
the 5 faces of the Stone cell. -/
theorem c10_invalid_bytes_make_holes :
    (∀ (d : Store) (sx sy sz x z y : ℕ), x < sx → z < sz → y < sy →
      8 ≤ d ((meshIndexOf sy sz (x : ℤ) (y : ℤ) (z : ℤ)).toNat) →
      meshCell d sx sy sz x z y = memptyOut) ∧
    (∀ (d : Store) (sx sy sz : ℕ) (c : ℕ × ℕ × ℕ) (f : Face),
      0 ≤ (c.1 : ℤ) + f.dir.1 → (c.1 : ℤ) + f.dir.1 < sx →
      0 ≤ (c.2.2 : ℤ) + f.dir.2.1 → (c.2.2 : ℤ) + f.dir.2.1 < sy →
      0 ≤ (c.2.1 : ℤ) + f.dir.2.2 → (c.2.1 : ℤ) + f.dir.2.2 < sz →
      d ((meshIndexOf sy sz ((c.1 : ℤ) + f.dir.1) ((c.2.2 : ℤ) + f.dir.2.1)
        ((c.2.1 : ℤ) + f.dir.2.2)).toNat) ≠ BLOCK_AIR →
      (c, f) ∉ specFaceList d sx sy sz) ∧
    (greedyMeshVoxel holeExampleGrid 2 1 1).positions.length = 5 * 18 := by
  refine ⟨?_, ?_, by decide⟩
  · intro d sx sy sz x z y hx hz hy h8
    unfold meshCell
    rw [meshGetBlock_in d sx sy sz hx hy hz]
    rw [if_neg (by unfold BLOCK_AIR; omega), MATERIALS_none h8]
  · intro d sx sy sz c f hb1 hb2 hb3 hb4 hb5 hb6 hval hmem
    unfold specFaceList at hmem
    obtain ⟨c', hc', hin⟩ := List.mem_flatMap.mp hmem
    by_cases hair : d ((meshIndexOf sy sz (c'.1 : ℤ) (c'.2.2 : ℤ) (c'.2.1 : ℤ)).toNat)
        = BLOCK_AIR
    · rw [if_pos hair] at hin
      exact absurd hin (List.not_mem_nil _)
    · rw [if_neg hair] at hin
      obtain ⟨f', hf', heq⟩ := List.mem_map.mp hin
      obtain ⟨hc'', hf''⟩ : c' = c ∧ f' = f := by
        rw [Prod.ext_iff] at heq
        exact ⟨heq.1, heq.2⟩
      subst hc''
      subst hf''
      have hvis := (List.mem_filter.mp hf').2
      unfold specVisible specAirAt at hvis
      rw [decide_eq_false (by omega), decide_eq_false hval] at hvis
      exact absurd hvis (by decide)

/-- Witness for C10 on the [Stone, 9] buffer: the invalid cell meshes to
nothing, and the Stone cell's +X face toward it is not emitted. -/
theorem c10_invalid_bytes_make_holes_witness :
    8 ≤ holeExampleGrid ((meshIndexOf 1 1 ((1 : ℕ) : ℤ) ((0 : ℕ) : ℤ) ((0 : ℕ) : ℤ)).toNat) ∧
    meshCell holeExampleGrid 2 1 1 1 0 0 = memptyOut ∧
    (((0, 0, 0) : ℕ × ℕ × ℕ),
      (⟨(1, 0, 0), (1, 0, 0), (1, 1, 0), (1, 1, 1), (1, 0, 1)⟩ : Face)) ∉
      specFaceList holeExampleGrid 2 1 1 :=
  ⟨by decide,
   c10_invalid_bytes_make_holes.1 holeExampleGrid 2 1 1 1 0 0 (by decide) (by decide)
     (by decide) (by decide),
   c10_invalid_bytes_make_holes.2.1 holeExampleGrid 2 1 1 (0, 0, 0)
     ⟨(1, 0, 0), (1, 0, 0), (1, 1, 0), (1, 1, 1), (1, 0, 1)⟩
     (by decide) (by decide) (by decide) (by decide) (by decide) (by decide) (by decide)⟩

/-- The chunk map holding exactly the chunk (0,0) buffer in which the
generator wrote Grass at local (1, 0, 0) via its own `setBlock`. -/
def c1World : ℤ × ℤ → Option Store :=
  fun k => if k = (0, 0) then some (setBlock emptyStore 1 0 0 BLOCK_GRASS) else none

/-- Claim C1 fails on the code: the generator's and the mesher's index
helpers do agree (`y + z*128 + x*128*16`), but the main-thread `getBlock` of
`src/index.tsx` computes `x + z*16 + y*16*16` instead, so after the
generator writes Grass at local (1, 0, 0) (linear index 2048), reading that
coordinate back through `getBlock` looks at linear index 1 and returns Air,
not the Grass that was written. -/
theorem c1_consumer_index_mismatch :
    (∀ x y z : ℤ, indexOfZ x y z = meshIndexOf 128 16 x y z) ∧
    ((1 + 0 * 16 + 0 * (16 * 16) : ℕ) = 1 ∧ indexOf 1 0 0 = 2048) ∧
    (setBlock emptyStore 1 0 0 BLOCK_GRASS) ((indexOfZ 1 0 0).toNat) = BLOCK_GRASS ∧
    mainGetBlock c1World 1 0 0 = BLOCK_AIR ∧
    BLOCK_AIR ≠ BLOCK_GRASS := by
  refine ⟨?_, by decide, by decide, ?_, by decide⟩
  · intro x y z
    unfold indexOfZ meshIndexOf
    push_cast
    ring
  · unfold mainGetBlock c1World
    rw [show ⌊(1 : ℚ) / 16⌋ = 0 by norm_num, show ⌊(0 : ℚ) / 16⌋ = 0 by norm_num,
      show ⌊(1 : ℚ)⌋ = 1 by norm_num, show ⌊(0 : ℚ)⌋ = 0 by norm_num]
    norm_num
    decide

/-- Claim C2 fails on the code: the worker's `onmessage` handler has no
validation and no remesh branch — every request, of any buffer length,
produces a mesh response (never an InvalidInput report), and the response is
entirely independent of the request's voxel buffer, so a remesh request's
buffer is never meshed; the chunk is regenerated instead. -/
theorem c2_worker_never_validates :
    (∀ (sinv : ℚ → ℚ) (nanChunk : Store) (req : WorkerRequest),
      ∃ m, workerOnMessage sinv nanChunk req = WorkerResponse.meshResult m) ∧
    (∀ (sinv : ℚ → ℚ) (nanChunk : Store) (cx cz seed : Option ℚ)
      (buf buf' : Option (List ℕ)),
      workerOnMessage sinv nanChunk ⟨cx, cz, seed, buf⟩ =
        workerOnMessage sinv nanChunk ⟨cx, cz, seed, buf'⟩) := by
  constructor
  · intro sinv nanChunk req
    obtain ⟨cx, cz, seed, data⟩ := req
    cases cx <;> cases cz <;> cases seed <;> exact ⟨_, rfl⟩
  · intro sinv nanChunk cx cz seed buf buf'
    cases cx <;> cases cz <;> cases seed <;> rfl
/-! ### Claim C6: tree placement -/

theorem surfaceScan_lt {d : Store} {x z sy : ℕ} (h : surfaceScan d x z = some sy) :
    sy < 128 := by
  unfold surfaceScan at h
  have hm := List.mem_of_find?_eq_some h
  rw [List.mem_reverse, List.mem_range] at hm
  exact hm

theorem setBlock_changes (d : Store) (xx yy zz : ℤ) (v : ℕ) (i : ℕ) :
    setBlock d xx yy zz v i = d i ∨ setBlock d xx yy zz v i = v := by
  unfold setBlock
  split
  · dsimp only
    split
    · exact Or.inr rfl
    · exact Or.inl rfl
  · exact Or.inl rfl

theorem foldl_store_changes {α : Type} (G : Store → α → Store) (v : ℕ)
    (hG : ∀ (d' : Store) (c : α) (i : ℕ), G d' c i = d' i ∨ G d' c i = v) :
    ∀ (l : List α) (d : Store) (i : ℕ), (l.foldl G d) i = d i ∨ (l.foldl G d) i = v := by
  intro l
  induction l with
  | nil => intro d i; exact Or.inl rfl
  | cons c tl ih =>
    intro d i
    rw [List.foldl_cons]
    rcases ih (G d c) i with h | h
    · rcases hG d c i with h2 | h2
      · exact Or.inl (h.trans h2)
      · exact Or.inr (h.trans h2)
    · exact Or.inr h

theorem foldl_write_on_empty {α : Type} (G : Store → α → Store) (v v₀ : ℕ)
    (hne : v ≠ v₀)
    (hG : ∀ (d' : Store) (c : α),
      (∀ i, G d' c i = d' i) ∨
      ∃ j, d' j = v₀ ∧ ∀ i, G d' c i = if i = j then v else d' i) :
    ∀ (l : List α) (d₀ d : Store),
      (∀ i, d i = d₀ i ∨ (d i = v ∧ d₀ i = v₀)) →
      ∀ i, (l.foldl G d) i = d₀ i ∨ ((l.foldl G d) i = v ∧ d₀ i = v₀) := by
  intro l
  induction l with
  | nil => intro d₀ d hR i; exact hR i
  | cons c tl ih =>
    intro d₀ d hR i
    rw [List.foldl_cons]
    apply ih
    intro j
    rcases hG d c with h | ⟨j₀, hj₀, hw⟩
    · rw [h j]; exact hR j
    · rw [hw j]
      by_cases hj : j = j₀
      · subst hj
        rw [if_pos rfl]
        rcases hR j with h2 | h2
        · exact Or.inr ⟨rfl, h2 ▸ hj₀⟩
        · exact absurd (h2.1.symm.trans hj₀) hne
      · rw [if_neg hj]; exact hR j

theorem trunk_write_other' (x z sy : ℕ) (t : ℕ) (l : List ℕ) :
    ∀ (d' : Store) (c : ℕ) (j : ℕ), c ∈ l →
      ¬ (j = indexOf x (sy + c) z) →
      setBlock d' (x : ℤ) ((sy : ℤ) + (c : ℤ)) (z : ℤ) t j = d' j := by
  intro d' c j _ hj
  unfold setBlock
  split
  · dsimp only
    rw [if_neg]
    unfold indexOfZ
    unfold indexOf at hj
    omega
  · rfl

theorem trunk_write_hit (x z sy : ℕ) (th : ℤ) (t : ℕ) (hx : x < 16) (hz : z < 16)
    (h0 : 0 ≤ th) (hfit : (sy : ℤ) + th + 2 < 128) :
    ∀ (d' : Store) (c : ℕ) (j : ℕ), c ∈ List.range' 1 th.toNat →
      j = indexOf x (sy + c) z →
      setBlock d' (x : ℤ) ((sy : ℤ) + (c : ℤ)) (z : ℤ) t j = t := by
  intro d' c j hc hj
  rw [List.mem_range'_1] at hc
  have hcast : ((sy : ℤ) + (c : ℤ)) = ((sy + c : ℕ) : ℤ) := by push_cast; ring
  have hth : (th.toNat : ℤ) = th := Int.toNat_of_nonneg h0
  have hyb : sy + c < 128 := by omega
  rw [hcast, setBlock_eval d' x (sy + c) z t hx hyb hz j, if_pos hj]

theorem trunk_value_congr (x z sy : ℕ) (t : ℕ) (l : List ℕ) :
    ∀ (d₁ d₂ : Store) (c : ℕ) (j : ℕ), c ∈ l →
      j = indexOf x (sy + c) z →
      (∀ j', j' = indexOf x (sy + c) z → d₁ j' = d₂ j') → t = t :=
  fun _ _ _ _ _ _ _ => rfl

theorem trunk_pairwise (x z sy : ℕ) (n : ℕ) :
    List.Pairwise
      (fun c c' => ∀ j, j = indexOf x (sy + c) z → j = indexOf x (sy + c') z → False)
      (List.range' 1 n) := by
  refine (List.nodup_range' 1 n).imp_of_mem ?_
  intro a b _ _ hab j hja hjb
  subst hja
  unfold indexOf at hjb
  omega

theorem trunk_read (x z sy : ℕ) (th : ℤ) (t : ℕ) (hx : x < 16) (hz : z < 16)
    (h0 : 0 ≤ th) (hfit : (sy : ℤ) + th + 2 < 128) (d : Store) (k : ℕ)
    (hk1 : 1 ≤ k) (hk2 : (k : ℤ) ≤ th) :
    ((List.range' 1 th.toNat).foldl
        (fun d (i : ℕ) => setBlock d (x : ℤ) ((sy : ℤ) + (i : ℤ)) (z : ℤ) t) d)
      (indexOf x (sy + k) z) = t := by
  have hth : (th.toNat : ℤ) = th := Int.toNat_of_nonneg h0
  have hmem : k ∈ List.range' 1 th.toNat := by
    rw [List.mem_range'_1]; omega
  exact foldl_store_hit
    (fun d (i : ℕ) => setBlock d (x : ℤ) ((sy : ℤ) + (i : ℤ)) (z : ℤ) t)
    (fun (c : ℕ) (j : ℕ) => j = indexOf x (sy + c) z)
    (fun _ _ _ => t)
    (List.range' 1 th.toNat)
    (trunk_pairwise x z sy th.toNat)
    (trunk_write_other' x z sy t (List.range' 1 th.toNat))
    (trunk_write_hit x z sy th t hx hz h0 hfit)
    (trunk_value_congr x z sy t (List.range' 1 th.toNat))
    d k hmem (indexOf x (sy + k) z) rfl

theorem indexOfZ_nonneg_lt {xx yy zz : ℤ} (hb : 0 ≤ xx ∧ xx < 16 ∧ 0 ≤ yy ∧ yy < 128 ∧
    0 ≤ zz ∧ zz < 16) : 0 ≤ indexOfZ xx yy zz ∧ indexOfZ xx yy zz < 32768 := by
  unfold indexOfZ
  constructor <;> nlinarith [hb.1, hb.2.1, hb.2.2.1, hb.2.2.2.1, hb.2.2.2.2.1, hb.2.2.2.2.2]

theorem canopy_step_shape (x z sy : ℕ) (th : ℤ) :
    ∀ (d' : Store) (c : ℤ × ℤ × ℤ),
      (∀ i, (let ly := c.1
             let lx := c.2.1
             let lz := c.2.2
             if lx * lx + ly * ly + lz * lz ≤ 2 * 2 then
               if getRaw d' ((x : ℤ) + lx) ((sy : ℤ) + th + ly) ((z : ℤ) + lz)
                   = some BLOCK_AIR then
                 setBlock d' ((x : ℤ) + lx) ((sy : ℤ) + th + ly) ((z : ℤ) + lz)
                   BLOCK_LEAVES
               else d'
             else d') i = d' i) ∨
      ∃ j, d' j = BLOCK_AIR ∧
        ∀ i, (let ly := c.1
              let lx := c.2.1
              let lz := c.2.2
              if lx * lx + ly * ly + lz * lz ≤ 2 * 2 then
                if getRaw d' ((x : ℤ) + lx) ((sy : ℤ) + th + ly) ((z : ℤ) + lz)
                    = some BLOCK_AIR then
                  setBlock d' ((x : ℤ) + lx) ((sy : ℤ) + th + ly) ((z : ℤ) + lz)
                    BLOCK_LEAVES
                else d'
              else d') i = if i = j then BLOCK_LEAVES else d' i := by
  intro d' c
  by_cases hball : c.2.1 * c.2.1 + c.1 * c.1 + c.2.2 * c.2.2 ≤ 2 * 2
  · rw [if_pos hball]
    by_cases hair : getRaw d' ((x : ℤ) + c.2.1) ((sy : ℤ) + th + c.1) ((z : ℤ) + c.2.2)
        = some BLOCK_AIR
    · rw [if_pos hair]
      by_cases hb : 0 ≤ (x : ℤ) + c.2.1 ∧ (x : ℤ) + c.2.1 < 16 ∧
          0 ≤ (sy : ℤ) + th + c.1 ∧ (sy : ℤ) + th + c.1 < 128 ∧
          0 ≤ (z : ℤ) + c.2.2 ∧ (z : ℤ) + c.2.2 < 16
      · right
        have hidx := indexOfZ_nonneg_lt hb
        refine ⟨(indexOfZ ((x : ℤ) + c.2.1) ((sy : ℤ) + th + c.1) ((z : ℤ) + c.2.2)).toNat,
          ?_, ?_⟩
        · unfold getRaw at hair
          rw [if_pos hidx] at hair
          exact (Option.some_inj.mp hair)
        · intro i
          unfold setBlock
          rw [if_pos hb]
          by_cases hi : (i : ℤ) = indexOfZ ((x : ℤ) + c.2.1) ((sy : ℤ) + th + c.1)
              ((z : ℤ) + c.2.2)
          · rw [if_pos hi, if_pos (by omega)]
          · rw [if_neg hi, if_neg (by omega)]
      · left
        intro i
        unfold setBlock
        rw [if_neg hb]
    · rw [if_neg hair]
      exact Or.inl fun i => rfl
  · rw [if_neg hball]
    exact Or.inl fun i => rfl
theorem specTreeHeight_ge (sinv : ℚ → ℚ) (cx cz seed : ℚ) (x z : ℕ) :
    4 ≤ specTreeHeight sinv cx cz seed x z := by
  unfold specTreeHeight
  have h0 : (0 : ℤ) ≤ ⌊pseudoNoise sinv (cx * 16 + (x : ℚ)) 1 (cz * 16 + (z : ℚ))
      (seed + 4) * 3⌋ := by
    apply Int.floor_nonneg.mpr
    have := pseudoNoise_nonneg sinv (cx * 16 + (x : ℚ)) 1 (cz * 16 + (z : ℚ)) (seed + 4)
    linarith
  omega

theorem tree_branch_log (x z sy : ℕ) (th : ℤ) (hx : x < 16) (hz : z < 16)
    (h0 : 0 ≤ th) (hfit : (sy : ℤ) + th + 2 < 128) (d : Store) (k : ℕ)
    (hk1 : 1 ≤ k) (hk2 : (k : ℤ) ≤ th) :
    ((canopyOffsets ×ˢ canopyOffsets ×ˢ canopyOffsets).foldl
        (fun d c =>
          if c.2.1 * c.2.1 + c.1 * c.1 + c.2.2 * c.2.2 ≤ 2 * 2 then
            if getRaw d ((x : ℤ) + c.2.1) ((sy : ℤ) + th + c.1) ((z : ℤ) + c.2.2)
                = some BLOCK_AIR then
              setBlock d ((x : ℤ) + c.2.1) ((sy : ℤ) + th + c.1) ((z : ℤ) + c.2.2)
                BLOCK_LEAVES
            else d
          else d)
        ((List.range' 1 th.toNat).foldl
          (fun d (i : ℕ) => setBlock d (x : ℤ) ((sy : ℤ) + (i : ℤ)) (z : ℤ) BLOCK_LOG) d))
      (indexOf x (sy + k) z) = BLOCK_LOG := by
  have htrunk := trunk_read x z sy th BLOCK_LOG hx hz h0 hfit d k hk1 hk2
  have hcan := foldl_write_on_empty _ BLOCK_LEAVES BLOCK_AIR (by decide)
    (canopy_step_shape x z sy th)
    (canopyOffsets ×ˢ canopyOffsets ×ˢ canopyOffsets)
    ((List.range' 1 th.toNat).foldl
      (fun d (i : ℕ) => setBlock d (x : ℤ) ((sy : ℤ) + (i : ℤ)) (z : ℤ) BLOCK_LOG) d)
    ((List.range' 1 th.toNat).foldl
      (fun d (i : ℕ) => setBlock d (x : ℤ) ((sy : ℤ) + (i : ℤ)) (z : ℤ) BLOCK_LOG) d)
    (fun i => Or.inl rfl) (indexOf x (sy + k) z)
  rcases hcan with h | h
  · exact h.trans htrunk
  · rw [htrunk] at h
    exact absurd h.2 (by decide)

theorem tree_branch_changes (x z sy : ℕ) (th : ℤ) (d : Store) :
    ∀ i : ℕ,
      ((canopyOffsets ×ˢ canopyOffsets ×ˢ canopyOffsets).foldl
          (fun d c =>
            if c.2.1 * c.2.1 + c.1 * c.1 + c.2.2 * c.2.2 ≤ 2 * 2 then
              if getRaw d ((x : ℤ) + c.2.1) ((sy : ℤ) + th + c.1) ((z : ℤ) + c.2.2)
                  = some BLOCK_AIR then
                setBlock d ((x : ℤ) + c.2.1) ((sy : ℤ) + th + c.1) ((z : ℤ) + c.2.2)
                  BLOCK_LEAVES
              else d
            else d)
          ((List.range' 1 th.toNat).foldl
            (fun d (i : ℕ) => setBlock d (x : ℤ) ((sy : ℤ) + (i : ℤ)) (z : ℤ) BLOCK_LOG) d))
        i = d i ∨
      ((canopyOffsets ×ˢ canopyOffsets ×ˢ canopyOffsets).foldl
          (fun d c =>
            if c.2.1 * c.2.1 + c.1 * c.1 + c.2.2 * c.2.2 ≤ 2 * 2 then
              if getRaw d ((x : ℤ) + c.2.1) ((sy : ℤ) + th + c.1) ((z : ℤ) + c.2.2)
                  = some BLOCK_AIR then
                setBlock d ((x : ℤ) + c.2.1) ((sy : ℤ) + th + c.1) ((z : ℤ) + c.2.2)
                  BLOCK_LEAVES
              else d
            else d)
          ((List.range' 1 th.toNat).foldl
            (fun d (i : ℕ) => setBlock d (x : ℤ) ((sy : ℤ) + (i : ℤ)) (z : ℤ) BLOCK_LOG) d))
        i = BLOCK_LOG ∨
      (((canopyOffsets ×ˢ canopyOffsets ×ˢ canopyOffsets).foldl
          (fun d c =>
            if c.2.1 * c.2.1 + c.1 * c.1 + c.2.2 * c.2.2 ≤ 2 * 2 then
              if getRaw d ((x : ℤ) + c.2.1) ((sy : ℤ) + th + c.1) ((z : ℤ) + c.2.2)
                  = some BLOCK_AIR then
                setBlock d ((x : ℤ) + c.2.1) ((sy : ℤ) + th + c.1) ((z : ℤ) + c.2.2)
                  BLOCK_LEAVES
              else d
            else d)
          ((List.range' 1 th.toNat).foldl
            (fun d (i : ℕ) => setBlock d (x : ℤ) ((sy : ℤ) + (i : ℤ)) (z : ℤ) BLOCK_LOG) d))
        i = BLOCK_LEAVES ∧ d i = BLOCK_AIR) := by
  intro i
  have hch : ∀ j : ℕ,
      ((List.range' 1 th.toNat).foldl
        (fun d (i : ℕ) => setBlock d (x : ℤ) ((sy : ℤ) + (i : ℤ)) (z : ℤ) BLOCK_LOG) d) j
        = d j ∨
      ((List.range' 1 th.toNat).foldl
        (fun d (i : ℕ) => setBlock d (x : ℤ) ((sy : ℤ) + (i : ℤ)) (z : ℤ) BLOCK_LOG) d) j
        = BLOCK_LOG :=
    fun j => foldl_store_changes _ BLOCK_LOG
      (fun d' (c : ℕ) j' => setBlock_changes d' (x : ℤ) ((sy : ℤ) + (c : ℤ)) (z : ℤ) BLOCK_LOG j')
      (List.range' 1 th.toNat) d j
  have hcan := foldl_write_on_empty _ BLOCK_LEAVES BLOCK_AIR (by decide)
    (canopy_step_shape x z sy th)
    (canopyOffsets ×ˢ canopyOffsets ×ˢ canopyOffsets)
    ((List.range' 1 th.toNat).foldl
      (fun d (i : ℕ) => setBlock d (x : ℤ) ((sy : ℤ) + (i : ℤ)) (z : ℤ) BLOCK_LOG) d)
    ((List.range' 1 th.toNat).foldl
      (fun d (i : ℕ) => setBlock d (x : ℤ) ((sy : ℤ) + (i : ℤ)) (z : ℤ) BLOCK_LOG) d)
    (fun i => Or.inl rfl) i
  rcases hcan with h | h
  · rcases hch i with h2 | h2
    · exact Or.inl (h.trans h2)
    · exact Or.inr (Or.inl (h.trans h2))
  · rcases hch i with h2 | h2
    · exact Or.inr (Or.inr ⟨h.1, h2.symm.trans h.2⟩)
    · rw [h2] at h
      exact absurd h.2 (by decide)

theorem step3Column_none (sinv : ℚ → ℚ) (cx cz seed : ℚ) (d : Store) (x z : ℕ)
    (h : surfaceScan d x z = none) :
    step3Column sinv cx cz seed d x z = d := by
  unfold step3Column
  rw [h]

theorem step3Column_tree_eq (sinv : ℚ → ℚ) (cx cz seed : ℚ) (d : Store) (x z sy : ℕ)
    (hscan : surfaceScan d x z = some sy)
    (hc : specTreeConds sinv cx cz seed d x z sy) :
    step3Column sinv cx cz seed d x z =
      (canopyOffsets ×ˢ canopyOffsets ×ˢ canopyOffsets).foldl
        (fun d c =>
          if c.2.1 * c.2.1 + c.1 * c.1 + c.2.2 * c.2.2 ≤ 2 * 2 then
            if getRaw d ((x : ℤ) + c.2.1)
                ((sy : ℤ) + specTreeHeight sinv cx cz seed x z + c.1) ((z : ℤ) + c.2.2)
                = some BLOCK_AIR then
              setBlock d ((x : ℤ) + c.2.1)
                ((sy : ℤ) + specTreeHeight sinv cx cz seed x z + c.1) ((z : ℤ) + c.2.2)
                BLOCK_LEAVES
            else d
          else d)
        ((List.range' 1 (specTreeHeight sinv cx cz seed x z).toNat).foldl
          (fun d (i : ℕ) => setBlock d (x : ℤ) ((sy : ℤ) + (i : ℤ)) (z : ℤ) BLOCK_LOG) d) := by
  obtain ⟨hb, hg, hn, hx3, hx14, hz3, hz14, hfit⟩ := hc
  unfold biomeAt at hb
  unfold specTreeHeight at hfit
  unfold step3Column
  rw [hscan]
  dsimp only
  rw [if_pos ⟨hb, hg⟩, if_pos ⟨hn, hx3, by omega, hz3, by omega⟩, if_pos hfit]
  unfold specTreeHeight
  rfl

theorem step3Column_no_tree (sinv : ℚ → ℚ) (cx cz seed : ℚ) (d : Store) (x z sy : ℕ)
    (hscan : surfaceScan d x z = some sy)
    (hnc : ¬ specTreeConds sinv cx cz seed d x z sy) :
    ∀ i : ℕ, step3Column sinv cx cz seed d x z i = d i ∨
      step3Column sinv cx cz seed d x z i = BLOCK_CACTUS := by
  intro i
  unfold step3Column
  rw [hscan]
  dsimp only
  by_cases h1 : getBiome sinv (cx * 16 + (x : ℚ)) (cz * 16 + (z : ℚ)) seed = BIOME_FOREST ∧
      d (indexOf x sy z) = BLOCK_GRASS
  · rw [if_pos h1]
    by_cases h2 : pseudoNoise sinv (cx * 16 + (x : ℚ)) 0 (cz * 16 + (z : ℚ)) (seed + 3)
        > 95/100 ∧ 2 < x ∧ x < 16 - 2 ∧ 2 < z ∧ z < 16 - 2
    · rw [if_pos h2]
      by_cases h3 : (sy : ℤ) +
          (4 + ⌊pseudoNoise sinv (cx * 16 + (x : ℚ)) 1 (cz * 16 + (z : ℚ)) (seed + 4) * 3⌋)
          + 2 < 128
      · exfalso
        apply hnc
        refine ⟨h1.1, h1.2, h2.1, h2.2.1, by omega, h2.2.2.2.1, by omega, ?_⟩
        unfold specTreeHeight
        exact h3
      · rw [if_neg h3]
        exact Or.inl rfl
    · rw [if_neg h2]
      exact Or.inl rfl
  · rw [if_neg h1]
    by_cases h4 : getBiome sinv (cx * 16 + (x : ℚ)) (cz * 16 + (z : ℚ)) seed = BIOME_DESERT ∧
        d (indexOf x sy z) = BLOCK_SAND
    · rw [if_pos h4]
      by_cases h5 : pseudoNoise sinv (cx * 16 + (x : ℚ)) 0 (cz * 16 + (z : ℚ)) (seed + 3)
          > 98/100
      · rw [if_pos h5]
        by_cases h6 : (sy : ℤ) +
            (2 + ⌊pseudoNoise sinv (cx * 16 + (x : ℚ)) 1 (cz * 16 + (z : ℚ)) (seed + 4) * 2⌋)
            < 128
        · rw [if_pos h6]
          exact foldl_store_changes _ BLOCK_CACTUS
            (fun d' (c : ℕ) j => setBlock_changes d' (x : ℤ) ((sy : ℤ) + (c : ℤ)) (z : ℤ)
              BLOCK_CACTUS j)
            (List.range' 1 (2 + ⌊pseudoNoise sinv (cx * 16 + (x : ℚ)) 1
              (cz * 16 + (z : ℚ)) (seed + 4) * 2⌋).toNat) d i
        · rw [if_neg h6]
          exact Or.inl rfl
      · rw [if_neg h5]
        exact Or.inl rfl
    · rw [if_neg h4]
      exact Or.inl rfl

/-- Claim C6: a tree (Log trunk plus Leaves canopy) is placed in a column exactly
when the biome is Forest, the surface block is Grass, the feature noise exceeds
0.95, the column is at least 3 cells from every horizontal chunk edge, and the
trunk of height 4 + floor(noise * 3) fits under the chunk height ceiling; when
placed, the trunk cells hold Log and every other changed cell is a Leaves cell
that was Air beforehand; when the conditions fail, no Log or Leaves cell is
written at all (at most a cactus). -/
theorem c6_tree_placement (sinv : ℚ → ℚ) (cx cz seed : ℚ) (d : Store) (x z : ℕ)
    (hx : x < 16) (hz : z < 16) :
    (surfaceScan d x z = none → step3Column sinv cx cz seed d x z = d) ∧
    ∀ sy : ℕ, surfaceScan d x z = some sy →
      (specTreeConds sinv cx cz seed d x z sy →
        (∀ k : ℕ, 1 ≤ k → (k : ℤ) ≤ specTreeHeight sinv cx cz seed x z →
          step3Column sinv cx cz seed d x z (indexOf x (sy + k) z) = BLOCK_LOG) ∧
        (∀ i : ℕ, step3Column sinv cx cz seed d x z i = d i ∨
          step3Column sinv cx cz seed d x z i = BLOCK_LOG ∨
          (step3Column sinv cx cz seed d x z i = BLOCK_LEAVES ∧ d i = BLOCK_AIR))) ∧
      (¬ specTreeConds sinv cx cz seed d x z sy →
        ∀ i : ℕ, step3Column sinv cx cz seed d x z i = d i ∨
          step3Column sinv cx cz seed d x z i = BLOCK_CACTUS) := by
  refine ⟨step3Column_none sinv cx cz seed d x z, fun sy hscan =>
    ⟨fun hc => ⟨fun k hk1 hk2 => ?_, ?_⟩,
     step3Column_no_tree sinv cx cz seed d x z sy hscan⟩⟩
  · rw [step3Column_tree_eq sinv cx cz seed d x z sy hscan hc]
    exact tree_branch_log x z sy (specTreeHeight sinv cx cz seed x z) hx hz
      (le_trans (by norm_num) (specTreeHeight_ge sinv cx cz seed x z))
      hc.2.2.2.2.2.2.2 d k hk1 hk2
  · rw [step3Column_tree_eq sinv cx cz seed d x z sy hscan hc]
    exact tree_branch_changes x z sy (specTreeHeight sinv cx cz seed x z) d

theorem c6_tree_placement_witness :
    (0 : ℕ) < 16 ∧ (0 : ℕ) < 16 ∧
    ((surfaceScan emptyStore 0 0 = none →
        step3Column (fun _ => 0) 0 0 0 emptyStore 0 0 = emptyStore) ∧
     ∀ sy : ℕ, surfaceScan emptyStore 0 0 = some sy →
       (specTreeConds (fun _ => 0) 0 0 0 emptyStore 0 0 sy →
         (∀ k : ℕ, 1 ≤ k → (k : ℤ) ≤ specTreeHeight (fun _ => 0) 0 0 0 0 0 →
           step3Column (fun _ => 0) 0 0 0 emptyStore 0 0 (indexOf 0 (sy + k) 0)
             = BLOCK_LOG) ∧
         (∀ i : ℕ, step3Column (fun _ => 0) 0 0 0 emptyStore 0 0 i = emptyStore i ∨
           step3Column (fun _ => 0) 0 0 0 emptyStore 0 0 i = BLOCK_LOG ∨
           (step3Column (fun _ => 0) 0 0 0 emptyStore 0 0 i = BLOCK_LEAVES ∧
             emptyStore i = BLOCK_AIR))) ∧
       (¬ specTreeConds (fun _ => 0) 0 0 0 emptyStore 0 0 sy →
         ∀ i : ℕ, step3Column (fun _ => 0) 0 0 0 emptyStore 0 0 i = emptyStore i ∨
           step3Column (fun _ => 0) 0 0 0 emptyStore 0 0 i = BLOCK_CACTUS)) :=
  ⟨by decide, by decide,
    c6_tree_placement (fun _ => 0) 0 0 0 emptyStore 0 0 (by decide) (by decide)⟩
